import Mathlib

/-!
A verification development for the SVG post-processing core of the
kicad-svg-extras repository: color parsing and resolution and CSS class
generation (`colors.py`), the CSS-collision check (`svg_generator.py`),
and the SVG merge engine (`svg_processor.py`).

Python strings are modelled as lists of characters (`Chars`).  The
regular expressions used by the code are modelled by explicit scanners
with the same semantics on the character classes involved; Python's
unicode-aware classes (`\s`, `\d`, `str.upper`, `str.lower`) are
modelled over their ASCII ranges, which is what the processed SVG/CSS
text consists of.  File contents are modelled as values: a file is its
character content plus, where the code parses it with ElementTree, the
parsed attribute view.
-/

namespace KicadSvg

/-- Python strings are modelled as lists of characters. -/
abbrev Chars := List Char

/-! ## Character classes and basic string operations -/

/-- Whitespace stripped by Python `str.strip()` and matched by `\s`
(ASCII range). -/
def pyWsChars : Chars := [' ', '\t', '\n', '\r', '\x0b', '\x0c']

def isPyWs (c : Char) : Bool := pyWsChars.contains c

/-- Strip characters satisfying `p` from both ends (Python `str.strip`). -/
def stripBy (p : Char → Bool) (s : Chars) : Chars :=
  ((s.dropWhile p).reverse.dropWhile p).reverse

/-- Python `str.strip()` (no argument: whitespace). -/
def pyStrip (s : Chars) : Chars := stripBy isPyWs s

/-- Python `str.strip(cs)` for a set of characters `cs`. -/
def pyStripChars (cs : Chars) (s : Chars) : Chars :=
  stripBy (fun c => cs.contains c) s

def asciiCasePairs : List (Char × Char) :=
  [('a','A'),('b','B'),('c','C'),('d','D'),('e','E'),('f','F'),('g','G'),
   ('h','H'),('i','I'),('j','J'),('k','K'),('l','L'),('m','M'),('n','N'),
   ('o','O'),('p','P'),('q','Q'),('r','R'),('s','S'),('t','T'),('u','U'),
   ('v','V'),('w','W'),('x','X'),('y','Y'),('z','Z')]

/-- ASCII model of Python `str.upper()` on one character. -/
def toUpperCh (c : Char) : Char :=
  match asciiCasePairs.find? (fun p => p.1 == c) with
  | some p => p.2
  | none => c

/-- ASCII model of Python `str.lower()` on one character. -/
def toLowerCh (c : Char) : Char :=
  match asciiCasePairs.find? (fun p => p.2 == c) with
  | some p => p.1
  | none => c

def upperStr (s : Chars) : Chars := s.map toUpperCh

def lowerStr (s : Chars) : Chars := s.map toLowerCh

/-- Python `str.find` scanning from index `i`. -/
def firstIdxFrom (pat : Chars) : Chars → Nat → Option Nat
  | [], i => if pat.isEmpty then some i else none
  | c :: rest, i =>
    if pat.isPrefixOf (c :: rest) then some i
    else firstIdxFrom pat rest (i + 1)

/-- Python `str.find`: index of the first occurrence of `pat` in `s`. -/
def firstIdx (pat s : Chars) : Option Nat := firstIdxFrom pat s 0

/-- Python `pat in s` substring test. -/
def containsSub (pat s : Chars) : Bool := (firstIdx pat s).isSome

/-- Python `str.rfind` helper: the last match index seen so far is `acc`. -/
def rfindIdxFrom (pat : Chars) : Chars → Nat → Option Nat → Option Nat
  | [], i, acc => if pat.isEmpty then some i else acc
  | c :: rest, i, acc =>
    rfindIdxFrom pat rest (i + 1)
      (if pat.isPrefixOf (c :: rest) then some i else acc)

/-- Python `str.rfind`: index of the last occurrence of `pat` in `s`. -/
def rfindIdx (pat s : Chars) : Option Nat := rfindIdxFrom pat s 0 none

/-- Python slice `s[a:b]` for nonnegative bounds. -/
def pySlice (s : Chars) (a b : Nat) : Chars := (s.drop a).take (b - a)

/-- Consume a literal prefix, or fail. -/
def dropExact (pre s : Chars) : Option Chars :=
  if pre.isPrefixOf s then some (s.drop pre.length) else none

/-! ## colors.py: constants -/

def DEFAULT_BACKGROUND_DARK : Chars := "#282A36".toList

/-- `colors.NON_COPPER_COLORS`: colors excluded during auto-detection. -/
def NON_COPPER_COLORS : List Chars := ["#000000".toList, "#FFFFFF".toList]

def MAX_RGB_VALUE : Nat := 255

/-- `colors.NAMED_COLORS`: the named color palette. -/
def NAMED_COLORS : List (Chars × Chars) :=
  [("red".toList, "#FF0000".toList),
   ("green".toList, "#008000".toList),
   ("blue".toList, "#0000FF".toList),
   ("yellow".toList, "#FFFF00".toList),
   ("cyan".toList, "#00FFFF".toList),
   ("magenta".toList, "#FF00FF".toList),
   ("black".toList, "#000000".toList),
   ("white".toList, "#FFFFFF".toList),
   ("gray".toList, "#808080".toList),
   ("grey".toList, "#808080".toList),
   ("orange".toList, "#FFA500".toList),
   ("purple".toList, "#800080".toList),
   ("brown".toList, "#A52A2A".toList),
   ("lime".toList, "#00FF00".toList),
   ("navy".toList, "#000080".toList),
   ("maroon".toList, "#800000".toList),
   ("olive".toList, "#808000".toList),
   ("aqua".toList, "#00FFFF".toList),
   ("fuchsia".toList, "#FF00FF".toList),
   ("silver".toList, "#C0C0C0".toList),
   ("teal".toList, "#008080".toList),
   ("pink".toList, "#FFC0CB".toList),
   ("gold".toList, "#FFD700".toList),
   ("indigo".toList, "#4B0082".toList),
   ("violet".toList, "#EE82EE".toList),
   ("turquoise".toList, "#40E0D0".toList),
   ("coral".toList, "#FF7F50".toList),
   ("salmon".toList, "#FA8072".toList),
   ("khaki".toList, "#F0E68C".toList),
   ("plum".toList, "#DDA0DD".toList),
   ("orchid".toList, "#DA70D6".toList),
   ("tan".toList, "#D2B48C".toList),
   ("beige".toList, "#F5F5DC".toList),
   ("mint".toList, "#98FB98".toList),
   ("lavender".toList, "#E6E6FA".toList),
   ("peach".toList, "#FFCBA4".toList)]

/-- Errors raised as `ColorError` by `colors.parse_color`. -/
inductive ColorError where
  | emptyValue : ColorError
  | rgbOutOfRange (r g b : Nat) : ColorError
  | invalidFormat (value : Chars) : ColorError
deriving DecidableEq

/-! ## colors.py: parse_color -/

def digitChars : Chars := ['0','1','2','3','4','5','6','7','8','9']

def hexDigitChars : Chars :=
  digitChars ++ ['a','b','c','d','e','f'] ++ ['A','B','C','D','E','F']

def isHexDigitB (c : Char) : Bool := hexDigitChars.contains c

/-- The regex class `\d`, over its ASCII range. -/
def isDigitB (c : Char) : Bool := digitChars.contains c

/-- The regex `^#[0-9A-Fa-f]{6}([0-9A-Fa-f]{2})?$` from `parse_color`. -/
def matchesHexColor (s : Chars) : Bool :=
  match s with
  | '#' :: ds => ds.all isHexDigitB && (ds.length == 6 || ds.length == 8)
  | _ => false

def digitVal (c : Char) : Nat :=
  match c with
  | '0' => 0 | '1' => 1 | '2' => 2 | '3' => 3 | '4' => 4
  | '5' => 5 | '6' => 6 | '7' => 7 | '8' => 8 | _ => 9

/-- Python `int` on a run of decimal digits. -/
def natFromDigits (ds : Chars) : Nat :=
  ds.foldl (fun a c => 10 * a + digitVal c) 0

/-- Consume `\s*`. -/
def skipWs (s : Chars) : Chars := s.dropWhile isPyWs

/-- Consume `\d+`: the (greedy) digit run and the rest; fails if empty. -/
def takeDigits (s : Chars) : Option (Chars × Chars) :=
  let ds := s.takeWhile isDigitB
  if ds.isEmpty then none else some (ds, s.dropWhile isDigitB)

def expectChar (c : Char) (s : Chars) : Option Chars :=
  match s with
  | d :: rest => if d == c then some rest else none
  | [] => none

def isDigitOrDot (c : Char) : Bool := isDigitB c || c == '.'

/-- The body `\s*\(\s*(\d+)\s*,\s*(\d+)\s*,\s*(\d+)\s*...\)$` shared by
the `rgb(...)` and `rgba(...)` regexes of `parse_color`; for `rgba` the
`...` part is `,\s*[\d.]+\s*`. -/
def matchRgbTail (withAlpha : Bool) (s0 : Chars) : Option (Nat × Nat × Nat) := do
  let s ← expectChar '(' (skipWs s0)
  let (d1, s) ← takeDigits (skipWs s)
  let s ← expectChar ',' (skipWs s)
  let (d2, s) ← takeDigits (skipWs s)
  let s ← expectChar ',' (skipWs s)
  let (d3, s) ← takeDigits (skipWs s)
  let s := skipWs s
  let s ← (if withAlpha then do
      let s ← expectChar ',' s
      let s := skipWs s
      let alpha := s.takeWhile isDigitOrDot
      if alpha.isEmpty then none
      else some (skipWs (s.dropWhile isDigitOrDot))
    else some s)
  let s ← expectChar ')' s
  if s.isEmpty then some (natFromDigits d1, natFromDigits d2, natFromDigits d3)
  else none

/-- The regex `^rgb\s*\(...\)$` from `parse_color`. -/
def matchRgb (v : Chars) : Option (Nat × Nat × Nat) := do
  matchRgbTail false (← dropExact ("rgb".toList) v)

/-- The regex `^rgba\s*\(...\)$` from `parse_color`. -/
def matchRgba (v : Chars) : Option (Nat × Nat × Nat) := do
  matchRgbTail true (← dropExact ("rgba".toList) v)

def hexDigitUpper (n : Nat) : Char :=
  match n with
  | 0 => '0' | 1 => '1' | 2 => '2' | 3 => '3' | 4 => '4'
  | 5 => '5' | 6 => '6' | 7 => '7' | 8 => '8' | 9 => '9'
  | 10 => 'A' | 11 => 'B' | 12 => 'C' | 13 => 'D' | 14 => 'E' | _ => 'F'

/-- Python `f"{n:02X}"` for a byte value `n ≤ 255`. -/
def hexByte (n : Nat) : Chars := [hexDigitUpper (n / 16), hexDigitUpper (n % 16)]

/-- Python-dict lookup over an insertion-ordered association list with
unique keys. -/
def lookupAssoc (k : Chars) (m : List (Chars × Chars)) : Option Chars :=
  match m.find? (fun p => p.1 == k) with
  | some p => some p.2
  | none => none

/-- `colors.parse_color`: parse hex / rgb / rgba / named color notations
into `#RRGGBB` (uppercase) form, or raise a `ColorError`; the input is
stripped of surrounding whitespace first. -/
def parse_color (color_value : Chars) : Except ColorError Chars :=
  if (pyStrip color_value).isEmpty then .error .emptyValue
  else if matchesHexColor (pyStrip color_value) then
    .ok ((upperStr (pyStrip color_value)).take 7)
  else
    match (matchRgb (pyStrip color_value)).orElse
        (fun _ => matchRgba (pyStrip color_value)) with
    | some (r, g, b) =>
      if r ≤ MAX_RGB_VALUE && g ≤ MAX_RGB_VALUE && b ≤ MAX_RGB_VALUE then
        .ok ('#' :: (hexByte r ++ hexByte g ++ hexByte b))
      else .error (.rgbOutOfRange r g b)
    | none =>
      match lookupAssoc (lowerStr (pyStrip color_value)) NAMED_COLORS with
      | some c => .ok c
      | none => .error (.invalidFormat (pyStrip color_value))

/-! ## colors.py: resolve_net_color (fnmatch-based wildcard lookup) -/

/-- Scan the interior of a bracket class up to its closing bracket: a
closing bracket in first position is a literal member; with no closing
bracket the scan fails (the opening bracket is then a literal).
Returns `(classChars, rest)`. -/
def classScan (s1 : Chars) : Option (Chars × Chars) :=
  match s1 with
  | ']' :: t =>
    (match firstIdx [']'] t with
     | some j => some (']' :: pySlice t 0 j, t.drop (j + 1))
     | none => none)
  | _ =>
    match firstIdx [']'] s1 with
    | some j => some (pySlice s1 0 j, s1.drop (j + 1))
    | none => none

/-- Split a bracket character-class, following `fnmatch.translate`: a
leading exclamation mark negates. Returns `(negated, classChars, rest)`. -/
def splitBracketClass (s : Chars) : Option (Bool × Chars × Chars) :=
  match s with
  | '!' :: t => (classScan t).map (fun p => (true, p.1, p.2))
  | _ => (classScan s).map (fun p => (false, p.1, p.2))

/-- Membership in a bracket class, with ranges by code point
(a reversed range matches nothing). -/
def classMember : Chars → Char → Bool
  | [], _ => false
  | a :: '-' :: b :: rest, c =>
    (decide (a.toNat ≤ c.toNat) && decide (c.toNat ≤ b.toNat))
      || classMember rest c
  | a :: rest, c => a == c || classMember rest c

/-- Shell-glob matching as implemented by `fnmatch.fnmatch` (POSIX case
mapping is the identity): a star matches any run, a question mark one
character, a bracket class one member, with negation and ranges; an
unterminated bracket is a literal. The fuel argument only bounds the
recursion; every call strictly shrinks pattern-plus-text, so fuel at
least that sum never runs out. -/
def globMatchGo : Nat → Chars → Chars → Bool
  | _, [], [] => true
  | _, [], _ :: _ => false
  | 0, _ :: _, _ => false
  | fuel + 1, '*' :: ps, s =>
    globMatchGo fuel ps s ||
      (match s with
       | [] => false
       | _ :: s2 => globMatchGo fuel ('*' :: ps) s2)
  | fuel + 1, '?' :: ps, s =>
    (match s with
     | [] => false
     | _ :: s2 => globMatchGo fuel ps s2)
  | fuel + 1, '[' :: ps, s =>
    (match splitBracketClass ps with
     | some (neg, cs, rest) =>
       (match s with
        | [] => false
        | c :: s2 => (classMember cs c != neg) && globMatchGo fuel rest s2)
     | none =>
       (match s with
        | [] => false
        | c :: s2 => (c == '[') && globMatchGo fuel ps s2))
  | fuel + 1, p :: ps, s =>
    (match s with
     | [] => false
     | c :: s2 => p == c && globMatchGo fuel ps s2)

def globMatch (p s : Chars) : Bool := globMatchGo (p.length + s.length) p s

/-- Whether a config key is treated as a wildcard pattern by
`resolve_net_color` (it contains a star, question mark, or bracket). -/
def isWildcardPat (p : Chars) : Bool :=
  p.contains '*' || p.contains '?' || p.contains '['

/-- The sort relation behind `sorted(keys, key=len, reverse=True)`:
at least as long comes first. -/
def lenGE (a b : Chars) : Prop := b.length ≤ a.length

instance : DecidableRel lenGE :=
  fun a b => inferInstanceAs (Decidable (b.length ≤ a.length))

instance : IsTotal Chars lenGE :=
  ⟨fun a b => (Nat.le_total b.length a.length).elim Or.inl Or.inr⟩

instance : IsTrans Chars lenGE :=
  ⟨fun _ _ _ hab hbc => Nat.le_trans hbc hab⟩

/-- Python `sorted(keys, key=len, reverse=True)`: stable
descending-by-length sort. `List.insertionSort` with the non-strict
"longer or equally long comes first" relation has the same stability. -/
def sortPatternsByLen (ps : List Chars) : List Chars :=
  List.insertionSort lenGE ps

/-- `colors.resolve_net_color`: exact lookup first, then glob patterns
in order of decreasing pattern length. -/
def resolve_net_color (net_name : Chars) (cfg : List (Chars × Chars)) :
    Option Chars :=
  if cfg.isEmpty then none
  else
    match lookupAssoc net_name cfg with
    | some c => some c
    | none =>
      match (sortPatternsByLen (cfg.map (fun p => p.1))).find?
          (fun p => isWildcardPat p && globMatch p net_name) with
      | some p => lookupAssoc p cfg
      | none => none

/-! ## colors.py: CSS class identifiers -/

/-- One Python `str.replace(old, new)` (all non-overlapping occurrences,
left to right; `old` is never empty where the code calls it, so each
step consumes at least one character and text-length fuel suffices). -/
def replaceAllGo (old new : Chars) : Nat → Chars → Chars
  | _, [] => []
  | 0, s => s
  | fuel + 1, c :: rest =>
    if old.isEmpty then c :: rest
    else if old.isPrefixOf (c :: rest) then
      new ++ replaceAllGo old new fuel ((c :: rest).drop old.length)
    else c :: replaceAllGo old new fuel rest

def replaceAll (old new s : Chars) : Chars := replaceAllGo old new s.length s

def isPyAlphaCh (c : Char) : Bool :=
  asciiCasePairs.any (fun p => p.1 == c || p.2 == c)

/-- The character class kept by `re.sub(r"[^a-z0-9_-]", "", s)`. -/
def isCssAllowed (c : Char) : Bool :=
  isDigitB c || c == '_' || c == '-'
    || asciiCasePairs.any (fun p => p.1 == c)

def isSepCh (c : Char) : Bool := c == '-' || c == '_'

/-- The substitution replacing every run of two or more dashes or
underscores by a single dash. -/
def collapseSepRunsGo : Nat → Chars → Chars
  | _, [] => []
  | 0, s => s
  | fuel + 1, c :: rest =>
    if isSepCh c then
      if (rest.takeWhile isSepCh).isEmpty then
        c :: collapseSepRunsGo fuel rest
      else '-' :: collapseSepRunsGo fuel (rest.dropWhile isSepCh)
    else c :: collapseSepRunsGo fuel rest

def collapseSepRuns (s : Chars) : Chars := collapseSepRunsGo s.length s

/-- The lowercasing and character-replacement chain at the start of
`net_name_to_css_class`. -/
def cssReplacedName (net_name : Chars) : Chars :=
  let s := lowerStr net_name
  let s := replaceAll ['/'] ['-'] s
  let s := replaceAll ['\\'] ['-'] s
  let s := replaceAll ['('] ['-'] s
  let s := replaceAll [')'] ['-'] s
  let s := replaceAll [' '] ['-'] s
  let s := replaceAll ['.'] ['-'] s
  let s := replaceAll ['_'] ['-'] s
  let s := replaceAll ['{'] ['-'] s
  let s := replaceAll ['}'] ['-'] s
  let s := replaceAll [':'] ['-'] s
  let s := replaceAll ['<'] [] s
  let s := replaceAll ['>'] [] s
  let s := replaceAll ['$'] [] s
  let s := replaceAll ['+'] ("plus".toList) s
  let s := replaceAll ['='] ("eq".toList) s
  let s := replaceAll ['@'] ("at".toList) s
  let s := replaceAll ['#'] ("hash".toList) s
  let s := replaceAll ['%'] ("pct".toList) s
  let s := replaceAll ['&'] ("and".toList) s
  let s := replaceAll ['*'] ("star".toList) s
  let s := replaceAll ['!'] ("not".toList) s
  let s := replaceAll ['?'] ['q'] s
  let s := replaceAll ['~'] ("tilde".toList) s
  let s := replaceAll ['^'] ("hat".toList) s
  s

/-- The tail of `net_name_to_css_class`: prefix names that do not start
with a letter or underscore, and fall back to the fixed token when
nothing remains. -/
def cssClassCore (z : Chars) : Chars :=
  let s :=
    match z with
    | [] => z
    | c :: _ => if isPyAlphaCh c || c == '_' then z else ("net-".toList) ++ z
  if s.isEmpty then "unknown-net".toList else s

/-- `colors.net_name_to_css_class`. -/
def net_name_to_css_class (net_name : Chars) : Chars :=
  ("net-".toList) ++ cssClassCore
    (pyStripChars ['-', '_']
      (collapseSepRuns ((cssReplacedName net_name).filter isCssAllowed)))

/-- The character class of the identifier regex
`[A-Za-z0-9_-]` (spec side). -/
def validIdentChar (c : Char) : Bool :=
  isPyAlphaCh c || isDigitB c || c == '_' || c == '-'

/-- The spec-side identifier shape `[A-Za-z_][A-Za-z0-9_-]*`
(anchored). -/
def validCssIdent (s : Chars) : Bool :=
  match s with
  | [] => false
  | c :: rest => (isPyAlphaCh c || c == '_') && rest.all validIdentChar

/-- `colors.net_layer_to_css_class`. -/
def net_layer_to_css_class (net_name layer_name : Chars) : Chars :=
  let net_css := net_name_to_css_class net_name
  let l := lowerStr layer_name
  let l := replaceAll ['.'] ['-'] l
  let l := replaceAll [' '] ['-'] l
  let l := replaceAll ['_'] ['-'] l
  let l := pyStripChars ['-'] l
  net_css ++ ['-'] ++ l

/-! ## colors.py: copper color detection -/

/-- An ElementTree element view: the `fill` attribute, the `style`
attribute (empty when absent, as `elem.get("style", "")` yields), and
the child elements. `root.iter()` is preorder traversal. -/
inductive XElem where
  | node (fill : Option Chars) (style : Chars) (children : List XElem)

/-- The regex `^#[0-9A-Fa-f]{6}$` used on `fill` attribute values. -/
def matchesHex6 (s : Chars) : Bool :=
  match s with
  | '#' :: ds => ds.all isHexDigitB && ds.length == 6
  | _ => false

/-- The `fill` attribute check of `find_copper_color_in_svg`: a truthy
value not in `NON_COPPER_COLORS` (a case-sensitive set test) that
matches the hex regex is returned uppercased. -/
def checkElemFill (fill : Option Chars) : Option Chars :=
  match fill with
  | some f =>
    if ¬ f.isEmpty ∧ f ∉ NON_COPPER_COLORS then
      if matchesHex6 f then some (upperStr f) else none
    else none
  | none => none

/-- Match of `fill:\s*#(hex hex hex hex hex hex)` anchored at the start
of `s`, returning the color with its hash. -/
def matchFillHexAt (s : Chars) : Option Chars :=
  match dropExact ("fill:".toList) s with
  | none => none
  | some s1 =>
    match skipWs s1 with
    | '#' :: s2 =>
      let h := s2.take 6
      if h.length == 6 && h.all isHexDigitB then some ('#' :: h) else none
    | _ => none

/-- `re.search` for the pattern above: first match anywhere in `s`. -/
def searchFillHex : Chars → Option Chars
  | [] => none
  | c :: rest =>
    match matchFillHexAt (c :: rest) with
    | some color => some color
    | none => searchFillHex rest

/-- The `style` attribute check of `find_copper_color_in_svg`: the first
`fill:` hex color, excluded case-insensitively against
`NON_COPPER_COLORS`, returned uppercased. -/
def checkElemStyle (style : Chars) : Option Chars :=
  if containsSub ("fill:".toList) style then
    match searchFillHex style with
    | some color =>
      if upperStr color ∉ NON_COPPER_COLORS then some (upperStr color)
      else none
    | none => none
  else none

mutual

def findCopperInElem : XElem → Option Chars
  | .node fill style children =>
    match checkElemFill fill with
    | some c => some c
    | none =>
      match checkElemStyle style with
      | some c => some c
      | none => findCopperInList children

def findCopperInList : List XElem → Option Chars
  | [] => none
  | e :: rest =>
    match findCopperInElem e with
    | some c => some c
    | none => findCopperInList rest

end

/-- An SVG file as the code sees it: the raw character content, and the
ElementTree view of the same bytes (`none` models a parse failure). -/
structure SvgFile where
  tree : Option XElem
  raw : Chars

/-- `colors.find_copper_color_in_svg`: `none` on a parse failure, else
the first qualifying fill color in document order. -/
def find_copper_color_in_svg (f : SvgFile) : Option Chars :=
  match f.tree with
  | none => none
  | some root => findCopperInElem root

/-! ## colors.py: apply_css_class_to_svg -/

def hexDigitVal (c : Char) : Nat :=
  match c with
  | '0' => 0 | '1' => 1 | '2' => 2 | '3' => 3 | '4' => 4
  | '5' => 5 | '6' => 6 | '7' => 7 | '8' => 8 | '9' => 9
  | 'a' => 10 | 'b' => 11 | 'c' => 12 | 'd' => 13 | 'e' => 14 | 'f' => 15
  | 'A' => 10 | 'B' => 11 | 'C' => 12 | 'D' => 13 | 'E' => 14 | _ => 15

/-- Python `int(color[i:i+2], 16)` on a `#RRGGBB` string. -/
def hexPairVal (color : Chars) (i : Nat) : Nat :=
  match pySlice color i (i + 2) with
  | [a, b] => 16 * hexDigitVal a + hexDigitVal b
  | _ => 0

def digitCharOf (n : Nat) : Char := hexDigitUpper n

/-- Decimal rendering of a natural number (Python `str(n)`); the fuel
bounds the number of divisions and `n` itself always suffices. -/
def natToDigitsGo : Nat → Nat → Chars
  | 0, n => [digitCharOf n]
  | fuel + 1, n =>
    if n < 10 then [digitCharOf n]
    else natToDigitsGo fuel (n / 10) ++ [digitCharOf (n % 10)]

def natToDigits (n : Nat) : Chars := natToDigitsGo n n

/-- The string `rgb(r,g,b)` built from a `#RRGGBB` color. -/
def rgbFuncStr (color : Chars) : Chars :=
  ("rgb(".toList) ++ natToDigits (hexPairVal color 1) ++ [','] ++
    natToDigits (hexPairVal color 3) ++ [','] ++
    natToDigits (hexPairVal color 5) ++ [')']

/-- Anchored match of `decl-kind, \s*, then one of the alternatives`, on
already-lowercased text (the enclosing regexes are case-insensitive). -/
def matchDeclAt (kind : Chars) (alts : List Chars) (s : Chars) : Bool :=
  match dropExact kind s with
  | some s2 => alts.any (fun a => a.isPrefixOf (skipWs s2))
  | none => false

/-- Search for the declaration anywhere in the (lowercased) text. -/
def declSearch (kind : Chars) (alts : List Chars) : Chars → Bool
  | [] => false
  | c :: rest =>
    matchDeclAt kind alts (c :: rest) || declSearch kind alts rest

/-- Anchored match of the removal regex `kind, \s*, [^;]+, ;?`,
returning the text after the consumed declaration. -/
def matchDeclRemoveAt (kind : Chars) (s : Chars) : Option Chars :=
  if kind.isPrefixOf s then
    if (skipWs (s.drop kind.length)).takeWhile (fun c => c != ';') = [] then
      none
    else
      match (skipWs (s.drop kind.length)).dropWhile (fun c => c != ';') with
      | ';' :: t => some t
      | t => some t
  else none

/-- `re.sub(kind removal regex, "", s)` on a style value
(case-sensitive, as in `replace_fill_with_class` and
`replace_stroke_with_class`). Each match consumes at least one
character (`matchDeclRemoveAt_length_lt`), so text-length fuel
suffices. -/
def subDeclsGo (kind : Chars) : Nat → Chars → Chars
  | _, [] => []
  | 0, s => s
  | fuel + 1, c :: rest =>
    match matchDeclRemoveAt kind (c :: rest) with
    | some residual => subDeclsGo kind fuel residual
    | none => c :: subDeclsGo kind fuel rest

def subDecls (kind s : Chars) : Chars := subDeclsGo kind s.length s

/-- Anchored match of `;\s*;`, returning the text after the match. -/
def matchSemiPairAt (s : Chars) : Option Chars :=
  match s with
  | ';' :: rest =>
    (match rest.dropWhile isPyWs with
     | ';' :: t => some t
     | _ => none)
  | _ => none

/-- `re.sub(r";\s*;", ";", s)`: non-overlapping left-to-right
replacement, continuing after each replacement. -/
def subDoubleSemisGo : Nat → Chars → Chars
  | _, [] => []
  | 0, s => s
  | fuel + 1, c :: rest =>
    match matchSemiPairAt (c :: rest) with
    | some t => ';' :: subDoubleSemisGo fuel t
    | none => c :: subDoubleSemisGo fuel rest

def subDoubleSemis (s : Chars) : Chars := subDoubleSemisGo s.length s

/-- The cleanup at the end of both replacement callbacks:
collapse doubled semicolons, then `strip(";")`, then `strip()`. -/
def cleanStyleValue (v : Chars) : Chars :=
  pyStrip (pyStripChars [';'] (subDoubleSemis v))

/-- `replace_fill_with_class`: drop `fill:` declarations, clean up, and
attach the class attribute. -/
def replaceFillValue (cls : Chars) (v : Chars) : Chars :=
  ("style=\"".toList) ++ cleanStyleValue (subDecls ("fill:".toList) v)
    ++ ("\" class=\"".toList) ++ cls ++ ['"']

/-- `replace_stroke_with_class`: drop `stroke:` declarations, clean up,
and attach the class attribute unless `class=` occurs in the matched
attribute text (the matched text is the style attribute itself). -/
def replaceStrokeValue (cls : Chars) (v : Chars) : Chars :=
  let cleaned := ("style=\"".toList)
    ++ cleanStyleValue (subDecls ("stroke:".toList) v) ++ ['"']
  if containsSub ("class=".toList) (("style=\"".toList) ++ v ++ ['"']) then
    cleaned
  else cleaned ++ (" class=\"".toList) ++ cls ++ ['"']

/-- One of the two
`re.sub(r'style="([^"]*(?:decl))[^"]*"', repl, content, IGNORECASE)`
passes: scan for a case-insensitive `style="`, take the quote-free
attribute value, and when the value contains the declaration replace
the whole attribute with `repl value`; otherwise move one character
forward, as the regex engine does after a failed match position. -/
def subStyleAttrGo (kind : Chars) (alts : List Chars)
    (repl : Chars → Chars) : Nat → Chars → Chars
  | _, [] => []
  | 0, s => s
  | fuel + 1, c :: rest =>
    if ("style=\"".toList).isPrefixOf (lowerStr (c :: rest)) then
      let afterQ := (c :: rest).drop 7
      match firstIdx ['"'] afterQ with
      | some j =>
        let v := pySlice afterQ 0 j
        if declSearch kind alts (lowerStr v) then
          repl v ++ subStyleAttrGo kind alts repl fuel (afterQ.drop (j + 1))
        else c :: subStyleAttrGo kind alts repl fuel rest
      | none => c :: subStyleAttrGo kind alts repl fuel rest
    else c :: subStyleAttrGo kind alts repl fuel rest

def subStyleAttr (kind : Chars) (alts : List Chars)
    (repl : Chars → Chars) (s : Chars) : Chars :=
  subStyleAttrGo kind alts repl s.length s

/-- The `<style>` block inserted after `</desc>`. -/
def cssStyleBlock (cls hex : Chars) : Chars :=
  ("<style>\n.".toList) ++ cls ++ (" \x7b\n    fill: ".toList) ++ hex
    ++ (";\n    stroke: ".toList) ++ hex ++ (";\n\x7d\n</style>".toList)

/-- `colors.apply_css_class_to_svg`, as a transformation from the input
file to the output file content. -/
def apply_css_class_to_svg (f : SvgFile) (net_name fallback_color : Chars)
    (layer_name : Option Chars) : Except ColorError Chars :=
  match parse_color fallback_color with
  | .error e => .error e
  | .ok hex_color =>
    let css_class :=
      match layer_name with
      | some l => net_layer_to_css_class net_name l
      | none => net_name_to_css_class net_name
    match find_copper_color_in_svg f with
    | none => .ok f.raw
    | some current_color =>
      let old_hex := lowerStr current_color
      let old_rgb := rgbFuncStr current_color
      let alts := [old_hex, old_rgb]
      let content := subStyleAttr ("fill:".toList) alts
        (replaceFillValue css_class) f.raw
      let content := subStyleAttr ("stroke:".toList) alts
        (replaceStrokeValue css_class) content
      let style_section := cssStyleBlock css_class hex_color
      let content :=
        match firstIdx ("</desc>".toList) content with
        | some i =>
          pySlice content 0 (i + 7) ++ '\n' :: style_section
            ++ content.drop (i + 7)
        | none => content
      .ok content

/-! ## svg_processor.py: CSS extraction and merging -/

/-- Anchored match of the opening tag in `<style[^>]*>(.*?)</style>`:
consume `<style`, then non-gt characters, then the closing gt, and
return the rest. -/
def matchStyleOpenAt (s : Chars) : Option Chars :=
  match dropExact ("<style".toList) s with
  | none => none
  | some s1 =>
    match s1.dropWhile (fun c => c != '>') with
    | '>' :: s2 => some s2
    | _ => none

/-- Anchored match of the whole pattern, returning the (lazy) body up to
the first closing tag. -/
def extractCssAt (s : Chars) : Option Chars :=
  match matchStyleOpenAt s with
  | none => none
  | some body =>
    match firstIdx ("</style>".toList) body with
    | some i => some (pySlice body 0 i)
    | none => none

/-- `re.search` scan for the pattern anywhere in the content. -/
def extractCssSearch : Chars → Option Chars
  | [] => none
  | c :: rest =>
    match extractCssAt (c :: rest) with
    | some g => some g
    | none => extractCssSearch rest

/-- `svg_processor.extract_css_styles`: the first style block's content,
stripped; empty when there is none. -/
def extract_css_styles (svg_content : Chars) : Chars :=
  match extractCssSearch svg_content with
  | some g => pyStrip g
  | none => []

def isBraceCh (c : Char) : Bool := c == '{' || c == '}'

/-- Anchored match of one CSS rule `[^{}]+ then braced [^{}]* body`,
returning the matched text and the rest. -/
def matchRuleAt (s : Chars) : Option (Chars × Chars) :=
  if s.takeWhile (fun c => !(isBraceCh c)) = [] then none
  else
    match s.dropWhile (fun c => !(isBraceCh c)) with
    | '{' :: s2 =>
      (match s2.dropWhile (fun c => !(isBraceCh c)) with
       | '}' :: s4 =>
         some (s.takeWhile (fun c => !(isBraceCh c))
           ++ '{' :: s2.takeWhile (fun c => !(isBraceCh c)) ++ ['}'], s4)
       | _ => none)
    | _ => none

/-- `re.findall(r"[^{}]+\x7b[^{}]*\x7d", css)`: all non-overlapping
rule matches, left to right. -/
def findRulesGo : Nat → Chars → List Chars
  | _, [] => []
  | 0, _ => []
  | fuel + 1, c :: rest =>
    match matchRuleAt (c :: rest) with
    | some (rule, residual) => rule :: findRulesGo fuel residual
    | none => findRulesGo fuel rest

def findRules (s : Chars) : List Chars := findRulesGo s.length s

/-- The order-preserving first-occurrence deduplication of
`merge_css_styles` (`seen_rules` list is the set accumulator). -/
def dedupKeepFirst (seen : List Chars) : List Chars → List Chars
  | [] => []
  | r :: rs =>
    if r ∈ seen then dedupKeepFirst seen rs
    else r :: dedupKeepFirst (r :: seen) rs

/-- The per-block contribution to `merge_css_styles`: blocks that strip
to empty are skipped, each rule is stripped and empty rules dropped. -/
def cssRulesOf (css : Chars) : List Chars :=
  if pyStrip css = [] then []
  else ((findRules css).map pyStrip).filter (fun r => !(r.isEmpty))

/-- Python `sep.join(parts)`. -/
def joinSep (sep : Chars) : List Chars → Chars
  | [] => []
  | [x] => x
  | x :: xs => x ++ sep ++ joinSep sep xs

/-- `svg_processor.merge_css_styles`. -/
def merge_css_styles (css_styles : List Chars) : Chars :=
  joinSep ['\n'] (dedupKeepFirst [] (css_styles.map cssRulesOf).join)

/-! ## svg_processor.py: merge_svg_files -/

/-- One SVG file handed to `merge_svg_files`: whether the path exists,
the root attributes in the ElementTree view, and the raw content. -/
structure Fragment where
  ex : Bool
  width : Option Chars
  height : Option Chars
  viewBox : Option Chars
  content : Chars
deriving DecidableEq

/-- Failure modes of `merge_svg_files` (each a `ValueError` whose
message carries the recorded fields). -/
inductive MergeError where
  | noSvgFiles : MergeError
  | dimMismatch (offending : Fragment)
      (expectedW expectedH expectedV : Option Chars) : MergeError
  | noValidFiles : MergeError
deriving DecidableEq

/-- The dimension-validation loop of `merge_svg_files`: nonexistent
files are skipped; the reference is (re)taken whenever the reference
width is still `None`; any mismatch against the reference raises. -/
def validateDims : List Fragment → Option Chars → Option Chars →
    Option Chars → Except MergeError (Option Chars × Option Chars × Option Chars)
  | [], rw, rh, rv => .ok (rw, rh, rv)
  | f :: rest, rw, rh, rv =>
    if ¬ f.ex then validateDims rest rw rh rv
    else if rw.isNone then validateDims rest f.width f.height f.viewBox
    else if f.width = rw ∧ f.height = rh ∧ f.viewBox = rv then
      validateDims rest rw rh rv
    else .error (.dimMismatch f rw rh rv)

/-- Python `f"..."` interpolation of a possibly absent attribute. -/
def fmtAttr : Option Chars → Chars
  | some s => s
  | none => "None".toList

/-- The fixed document header built by `merge_svg_files`, around the
reference dimension strings. -/
def mergeHeader (rw rh rv : Option Chars) : Chars :=
  ("<?xml version=\"1.0\" standalone=\"no\"?>\n<!DOCTYPE svg PUBLIC \"-//W3C//DTD SVG 1.1//EN\"\n\"http://www.w3.org/Graphics/SVG/1.1/DTD/svg11.dtd\">\n<svg\nxmlns:svg=\"http://www.w3.org/2000/svg\"\nxmlns=\"http://www.w3.org/2000/svg\"\nxmlns:xlink=\"http://www.w3.org/1999/xlink\"\nversion=\"1.1\"\nwidth=\"".toList)
    ++ fmtAttr rw ++ ("\" height=\"".toList) ++ fmtAttr rh
    ++ ("\" viewBox=\"".toList) ++ fmtAttr rv
    ++ ("\">\n<title>Merged SVG with per-net colors</title>\n<desc>Generated by net_colored_svg tool</desc>\n".toList)

/-- The end index of the group span: Python computes
`content.rfind("</g>") + 4`, which is `3` when there is no match
(`rfind` returns `-1`), and the guard `end != -1` therefore always
passes. -/
def spanEndIdx (content : Chars) : Nat :=
  match rfindIdx ("</g>".toList) content with
  | some e => e + 4
  | none => 3

/-- The span from the first `<g` to past the last `</g>`; `none` when
`<g` does not occur (`start == -1`). -/
def extractGroupSpan (content : Chars) : Option Chars :=
  match firstIdx ("<g".toList) content with
  | some s => some (pySlice content s (spanEndIdx content))
  | none => none

/-- The skip test applied to each extracted span: background rectangles
(by the fixed dark background fill) and style-bearing spans are not
merged. -/
def skipGroupSpan (g : Chars) : Bool :=
  containsSub (("fill=\"".toList) ++ DEFAULT_BACKGROUND_DARK ++ ['"']) g
    || containsSub ("<style>".toList) g

/-- The drawable spans contributed to the merged body, in input order. -/
def mergeBodySpans (svg_files : List Fragment) : List Chars :=
  (svg_files.filter (fun f => f.ex)).filterMap (fun f =>
    match extractGroupSpan f.content with
    | some g => if skipGroupSpan g then none else some g
    | none => none)

/-- The base file contributes to validation only when it exists. -/
def baseList : Option Fragment → List Fragment
  | some b => if b.ex then [b] else []
  | none => []

/-- The style-block contents collected from the existing input files
(the base file is not scanned for CSS or content). -/
def cssStylesOf (svg_files : List Fragment) : List Chars :=
  ((svg_files.filter (fun f => f.ex)).map
    (fun f => extract_css_styles f.content)).filter (fun s => !(s.isEmpty))

/-- The optional merged style section of the output document. -/
def mergeStyleSec (svg_files : List Fragment) : Chars :=
  if !((merge_css_styles (cssStylesOf svg_files)).isEmpty) then
    ("<style>\n".toList) ++ merge_css_styles (cssStylesOf svg_files)
      ++ ("\n</style>\n".toList)
  else []

/-- The merged document: header, optional style section, the group
spans in input order, and the closing tag. -/
def mergeOutput (rw rh rv : Option Chars) (svg_files : List Fragment) :
    Chars :=
  mergeHeader rw rh rv ++ mergeStyleSec svg_files
    ++ ((mergeBodySpans svg_files).map (fun g => g ++ ['\n'])).join
    ++ ("</svg>".toList)

/-- `svg_processor.merge_svg_files`, as a function from the input files
(and optional base) to the output content or the raised error. -/
def merge_svg_files (svg_files : List Fragment) (base_svg : Option Fragment) :
    Except MergeError Chars :=
  if svg_files.isEmpty then .error .noSvgFiles
  else
    match validateDims (baseList base_svg ++ svg_files) none none none with
    | .error e => .error e
    | .ok (rw, rh, rv) =>
      match rv with
      | none => .error .noValidFiles
      | some v => .ok (mergeOutput rw rh (some v) svg_files)

/-! ## svg_generator.py: CSS collision check -/

/-- The data carried by the collision `ValueError` raised in
`_generate_individual_net_svgs_single_layer`: the two conflicting net
names and the shared class. -/
structure CssCollision where
  existing : Chars
  dup : Chars
  cls : Chars
deriving DecidableEq

/-- The collision-check loop: `css_class_to_nets` is the accumulated
class-to-net dictionary. -/
def checkCssCollisions (layer : Chars) :
    List Chars → List (Chars × Chars) → Except CssCollision Unit
  | [], _ => .ok ()
  | n :: rest, acc =>
    match lookupAssoc (net_layer_to_css_class n layer) acc with
    | some existing =>
      .error ⟨existing, n, net_layer_to_css_class n layer⟩
    | none =>
      checkCssCollisions layer rest
        (acc ++ [(net_layer_to_css_class n layer, n)])

/-- The control flow of `_generate_individual_net_svgs_single_layer`:
the collision check runs to completion before any per-net SVG work
starts; `process` abstracts the per-net export/recolor step, and the
result maps each net to its processed artifact. -/
def generateIndividualNetSvgsSingleLayer {α : Type} (layer : Chars)
    (active_nets : List Chars) (process : Chars → α) :
    Except CssCollision (List (Chars × α)) :=
  match checkCssCollisions layer active_nets [] with
  | .error e => .error e
  | .ok _ => .ok (active_nets.map (fun n => (n, process n)))

/-! ## Spec-side views used to state the claims -/

mutual

/-- Document order of `root.iter()`: the element, then its descendants
in order (spec side). -/
def preorderElems : XElem → List XElem
  | .node fill style children =>
    .node fill style children :: preorderList children

def preorderList : List XElem → List XElem
  | [] => []
  | e :: rest => preorderElems e ++ preorderList rest

end

/-- The per-element color check of `find_copper_color_in_svg`: the
`fill` attribute first, then the `style` attribute. -/
def elemCheck : XElem → Option Chars
  | .node fill style _ =>
    match checkElemFill fill with
    | some c => some c
    | none => checkElemStyle style

/-- First hit in a list of per-element results. -/
def firstSome : List (Option Chars) → Option Chars
  | [] => none
  | some c :: _ => some c
  | none :: rest => firstSome rest

mutual

/-- Every fill in the document is absent or exactly the uppercase pure
black or pure white string, and no style attributes are present. -/
def onlyBWFillsElem : XElem → Bool
  | .node fill style children =>
    (fill == none || fill == some ("#000000".toList)
        || fill == some ("#FFFFFF".toList))
      && style.isEmpty && onlyBWFillsList children

def onlyBWFillsList : List XElem → Bool
  | [] => true
  | e :: rest => onlyBWFillsElem e && onlyBWFillsList rest

end

/-- The claimed output-order property: the parts occur in the text, in
order, without overlap. -/
def containsInOrder : Chars → List Chars → Prop
  | _, [] => True
  | s, p :: ps => ∃ pre rest, s = pre ++ p ++ rest ∧ containsInOrder rest ps

/-- The `.ok` payload of an `Except` result (used to state concrete
counterexamples). -/
def okContent (x : Except MergeError Chars) : Chars :=
  match x with
  | .ok c => c
  | .error _ => []

/-- The `.ok` payload of a color-error result. -/
def okColorContent (x : Except ColorError Chars) : Chars :=
  match x with
  | .ok c => c
  | .error _ => []

/-- The uppercase-or-digit hex alphabet (the canonical output
alphabet of `parse_color`). -/
def upperHexChars : Chars :=
  digitChars ++ ['A','B','C','D','E','F']

def isUpperHexDigit (c : Char) : Bool := upperHexChars.contains c

def exceptColorDecEq : DecidableEq (Except ColorError Chars) := fun a b =>
  match a, b with
  | .ok x, .ok y =>
    match decEq x y with
    | .isTrue h => .isTrue (by rw [h])
    | .isFalse h => .isFalse (fun hc => h (by injection hc))
  | .error x, .error y =>
    match decEq x y with
    | .isTrue h => .isTrue (by rw [h])
    | .isFalse h => .isFalse (fun hc => h (by injection hc))
  | .ok _, .error _ => .isFalse (fun hc => by injection hc)
  | .error _, .ok _ => .isFalse (fun hc => by injection hc)

instance : DecidableEq (Except ColorError Chars) := exceptColorDecEq

/-- The decimal rendering of a Python integer. -/
def intToDigits (i : Int) : Chars :=
  if i < 0 then '-' :: natToDigits i.natAbs else natToDigits i.toNat

/-- The literal `rgb(r,g,b)` source text for integer channels. -/
def rgbLiteral (r g b : Int) : Chars :=
  ("rgb(".toList) ++ intToDigits r ++ [','] ++ intToDigits g ++ [',']
    ++ intToDigits b ++ [')']

/-! ## Association-list lookup lemmas -/

/-- The dimension triple of a fragment, as validated by
`merge_svg_files`. -/
def fragDims (f : Fragment) : Option Chars × Option Chars × Option Chars :=
  (f.width, f.height, f.viewBox)

/-- The deduplicated CSS rule list produced inside `merge_css_styles`
for the merged document. -/
def mergedCssRules (svg_files : List Fragment) : List Chars :=
  dedupKeepFirst [] ((cssStylesOf svg_files).map cssRulesOf).join

theorem classScan_rest_length_le {s1 cs rest : Chars}
    (h : classScan s1 = some (cs, rest)) : rest.length ≤ s1.length := by
  unfold classScan at h
  split at h
  · split at h
    · rename_i t j hj
      injection h with h
      injection h with h1 h2
      subst h2
      simp [List.length_drop]
      omega
    · exact absurd h (by simp)
  · split at h
    · rename_i j hj
      injection h with h
      injection h with h1 h2
      subst h2
      simp [List.length_drop]
    · exact absurd h (by simp)

theorem splitBracketClass_rest_length_le {s : Chars} {neg : Bool}
    {cs rest : Chars} (h : splitBracketClass s = some (neg, cs, rest)) :
    rest.length ≤ s.length := by
  unfold splitBracketClass at h
  split at h
  · rename_i t
    cases hc : classScan t with
    | none => rw [hc] at h; simp at h
    | some p =>
      obtain ⟨cs0, rest0⟩ := p
      rw [hc] at h
      simp at h
      obtain ⟨h1, h2, h3⟩ := h
      subst h3
      have := classScan_rest_length_le hc
      simp
      omega
  · cases hc : classScan s with
    | none => rw [hc] at h; simp at h
    | some p =>
      obtain ⟨cs0, rest0⟩ := p
      rw [hc] at h
      simp at h
      obtain ⟨h1, h2, h3⟩ := h
      subst h3
      exact classScan_rest_length_le hc

theorem dropWhile_length_le {α : Type} (p : α → Bool) (l : List α) :
    (l.dropWhile p).length ≤ l.length := by
  induction l with
  | nil => simp
  | cons a t ih =>
    cases hp : p a with
    | true => simp [List.dropWhile, hp]; omega
    | false => simp [List.dropWhile, hp]

theorem length_takeWhile_add_dropWhile (p : Char → Bool) (l : Chars) :
    (l.takeWhile p).length + (l.dropWhile p).length = l.length := by
  have h := List.takeWhile_append_dropWhile (p := p) (l := l)
  calc (l.takeWhile p).length + (l.dropWhile p).length
      = (l.takeWhile p ++ l.dropWhile p).length := by
        rw [List.length_append]
    _ = l.length := by rw [h]

theorem matchDeclRemoveAt_length_lt {kind s r : Chars}
    (h : matchDeclRemoveAt kind s = some r) : r.length < s.length := by
  unfold matchDeclRemoveAt at h
  split at h
  · split at h
    · exact absurd h (by simp)
    · rename_i hne
      have hdrop : (s.drop kind.length).length ≤ s.length := by
        simp [List.length_drop]
      have hs2 : (skipWs (s.drop kind.length)).length ≤
          (s.drop kind.length).length := dropWhile_length_le _ _
      have hsplit := length_takeWhile_add_dropWhile
        (fun c => c != ';') (skipWs (s.drop kind.length))
      have htwlen :
          0 < ((skipWs (s.drop kind.length)).takeWhile
            (fun c => c != ';')).length := List.length_pos.mpr hne
      split at h
      · rename_i t ht
        injection h with h
        subst h
        have h1 : t.length + 1 =
            ((skipWs (s.drop kind.length)).dropWhile
              (fun c => c != ';')).length := by
          rw [ht]
          simp
        omega
      · injection h with h
        subst h
        omega
  · exact absurd h (by simp)

theorem matchSemiPairAt_length_lt {s t : Chars}
    (h : matchSemiPairAt s = some t) : t.length < s.length := by
  unfold matchSemiPairAt at h
  split at h
  · rename_i rest
    split at h
    · rename_i t0 ht
      injection h with h
      subst h
      have h1 : t0.length + 1 = (rest.dropWhile isPyWs).length := by
        rw [ht]
        simp
      have h2 := dropWhile_length_le isPyWs rest
      simp
      omega
    · exact absurd h (by simp)
  · exact absurd h (by simp)

theorem matchRuleAt_length_lt {s r s4 : Chars}
    (h : matchRuleAt s = some (r, s4)) : s4.length < s.length := by
  unfold matchRuleAt at h
  split at h
  · exact absurd h (by simp)
  · rename_i hne
    have hsplit := length_takeWhile_add_dropWhile
      (fun c => !(isBraceCh c)) s
    have htw : 0 < (s.takeWhile (fun c => !(isBraceCh c))).length :=
      List.length_pos.mpr hne
    split at h
    · rename_i s2 hs2
      have hlen2 : s2.length + 1 =
          (s.dropWhile (fun c => !(isBraceCh c))).length := by
        rw [hs2]
        simp
      have hsplit2 := length_takeWhile_add_dropWhile
        (fun c => !(isBraceCh c)) s2
      split at h
      · rename_i s4h hs4
        injection h with hpair
        injection hpair with h1 h2
        subst h2
        have hlen4 : s4h.length + 1 =
            (s2.dropWhile (fun c => !(isBraceCh c))).length := by
          rw [hs4]
          simp
        omega
      · exact absurd h (by simp)
    · exact absurd h (by simp)

theorem lookupAssoc_none_iff {k : Chars} {m : List (Chars × Chars)} :
    lookupAssoc k m = none ↔ ∀ p ∈ m, p.1 ≠ k := by
  unfold lookupAssoc
  cases hf : m.find? (fun p => p.1 == k) with
  | some p =>
    simp only [reduceCtorEq, false_iff]
    intro hall
    have hp := List.find?_some hf
    have hm := List.mem_of_find?_eq_some hf
    exact hall p hm (by simpa using hp)
  | none =>
    simp only [true_iff]
    intro p hp
    have := List.find?_eq_none.mp hf p hp
    simpa using this

theorem lookupAssoc_some_mem {k v : Chars} {m : List (Chars × Chars)}
    (h : lookupAssoc k m = some v) : (k, v) ∈ m := by
  unfold lookupAssoc at h
  cases hf : m.find? (fun p => p.1 == k) with
  | some p =>
    rw [hf] at h
    injection h with h
    have hp : p.1 = k := by simpa using List.find?_some hf
    have hm := List.mem_of_find?_eq_some hf
    have : p = (k, v) := by
      cases p
      simp at hp h ⊢
      exact ⟨hp, h⟩
    rwa [this] at hm
  | none => rw [hf] at h; exact absurd h (by simp)

theorem lookupAssoc_mem_nodup {k v : Chars} {m : List (Chars × Chars)}
    (hnd : (m.map (fun p => p.1)).Nodup) (hm : (k, v) ∈ m) :
    lookupAssoc k m = some v := by
  induction m with
  | nil => simp at hm
  | cons p rest ih =>
    obtain ⟨hp, hrest⟩ := by
      simpa using hnd
    rcases List.mem_cons.mp hm with heq | hmem
    · subst heq
      unfold lookupAssoc
      simp [List.find?]
    · have hne : p.1 ≠ k := by
        intro he
        exact hp v (by rw [he]; exact hmem)
      have hb : (p.1 == k) = false := by simpa using hne
      unfold lookupAssoc
      rw [List.find?]
      rw [hb]
      have := ih hrest hmem
      unfold lookupAssoc at this
      exact this

/-! ## C9: unchanged copy when no drawn color is detected -/

/-- C9: when `find_copper_color_in_svg` detects no drawn color, the
output of `apply_css_class_to_svg` is exactly the input content: no
class attribute is added, no style block is inserted, no declaration is
removed, and no error is raised (the code logs a warning and copies the
file). -/
theorem C9_no_color_copies_input (f : SvgFile) (net fallback : Chars)
    (layer : Option Chars) (hex : Chars)
    (hparse : parse_color fallback = .ok hex)
    (hfind : find_copper_color_in_svg f = none) :
    apply_css_class_to_svg f net fallback layer = .ok f.raw := by
  unfold apply_css_class_to_svg
  rw [hparse, hfind]

/-- C9 witness: a file whose only fill is pure black is copied
verbatim. -/
theorem C9_witness :
    apply_css_class_to_svg
      ⟨some (.node (some ("#000000".toList)) [] []), "<svg>x</svg>".toList⟩
      ("VCC".toList) ("red".toList) none
      = .ok ("<svg>x</svg>".toList) :=
  C9_no_color_copies_input _ _ _ _ ("#FF0000".toList) (by rfl) (by rfl)

/-! ## C5: CSS class collision detection -/

theorem checkCssCollisions_ok_pairwise (layer : Chars) :
    ∀ (l : List Chars) (acc : List (Chars × Chars)),
      checkCssCollisions layer l acc = .ok () →
      l.Pairwise (fun a b =>
        net_layer_to_css_class a layer ≠ net_layer_to_css_class b layer) ∧
      ∀ n ∈ l, ∀ p ∈ acc, p.1 ≠ net_layer_to_css_class n layer := by
  intro l
  induction l with
  | nil =>
    intro acc h
    exact ⟨List.Pairwise.nil, by simp⟩
  | cons n rest ih =>
    intro acc h
    unfold checkCssCollisions at h
    cases hl : lookupAssoc (net_layer_to_css_class n layer) acc with
    | some existing =>
      rw [hl] at h
      exact absurd h (by simp)
    | none =>
      rw [hl] at h
      obtain ⟨hpw, hacc⟩ := ih _ h
      have hn := lookupAssoc_none_iff.mp hl
      refine ⟨List.Pairwise.cons ?_ hpw, ?_⟩
      · intro m hm
        have := hacc m hm (net_layer_to_css_class n layer, n)
          (by simp)
        simpa using fun he => this (by rw [he])
      · intro m hm p hp
        rcases List.mem_cons.mp hm with heq | hmem
        · subst heq
          exact hn p hp
        · exact hacc m hmem p (by simp [hp])

theorem checkCssCollisions_error_props (layer : Chars) (N : List Chars) :
    ∀ (l : List Chars) (acc : List (Chars × Chars)) (e : CssCollision),
      checkCssCollisions layer l acc = .error e →
      (∀ p ∈ acc, net_layer_to_css_class p.2 layer = p.1 ∧ p.2 ∈ N ∧
        p.2 ∉ l) →
      (∀ n ∈ l, n ∈ N) → l.Nodup →
      e.dup ∈ N ∧ e.existing ∈ N ∧
      net_layer_to_css_class e.dup layer = e.cls ∧
      net_layer_to_css_class e.existing layer = e.cls ∧
      e.existing ≠ e.dup := by
  intro l
  induction l with
  | nil =>
    intro acc e h _ _ _
    exact absurd h (by simp [checkCssCollisions])
  | cons n rest ih =>
    intro acc e h hacc hl hnd
    unfold checkCssCollisions at h
    cases hlk : lookupAssoc (net_layer_to_css_class n layer) acc with
    | some existing =>
      rw [hlk] at h
      injection h with h
      subst h
      have hmem := lookupAssoc_some_mem hlk
      obtain ⟨hcls, hN, hnotin⟩ := hacc _ hmem
      refine ⟨hl n (by simp), hN, rfl, hcls, ?_⟩
      intro he
      apply hnotin
      show existing ∈ n :: rest
      have he2 : existing = n := he
      rw [he2]
      exact List.mem_cons_self _ _
    | none =>
      rw [hlk] at h
      obtain ⟨hnd1, hnd2⟩ := List.nodup_cons.mp hnd
      refine ih _ e h ?_ (fun m hm => hl m (by simp [hm])) hnd2
      intro p hp
      rcases List.mem_append.mp hp with hin | hnew
      · obtain ⟨h1, h2, h3⟩ := hacc p hin
        exact ⟨h1, h2, fun hc => h3 (by simp [hc])⟩
      · have : p = (net_layer_to_css_class n layer, n) := by simpa using hnew
        subst this
        exact ⟨rfl, hl n (by simp), hnd1⟩

/-- C5: if two distinct net names on the same layer map to the same CSS
class, `_generate_individual_net_svgs_single_layer` raises the collision
error before any per-net SVG is processed; the error names two distinct
conflicting nets from the input and the shared identifier, and nothing
is silently merged or renamed. -/
theorem C5_collision_fatal {α : Type} (layer : Chars)
    (active_nets : List Chars) (process : Chars → α) (n1 n2 : Chars)
    (hnd : active_nets.Nodup) (h1 : n1 ∈ active_nets)
    (h2 : n2 ∈ active_nets) (hne : n1 ≠ n2)
    (hcls : net_layer_to_css_class n1 layer =
      net_layer_to_css_class n2 layer) :
    ∃ e : CssCollision,
      generateIndividualNetSvgsSingleLayer layer active_nets process
        = .error e ∧
      e.dup ∈ active_nets ∧ e.existing ∈ active_nets ∧
      net_layer_to_css_class e.dup layer = e.cls ∧
      net_layer_to_css_class e.existing layer = e.cls ∧
      e.existing ≠ e.dup := by
  cases hchk : checkCssCollisions layer active_nets [] with
  | ok u =>
    cases u
    obtain ⟨hpw, _⟩ := checkCssCollisions_ok_pairwise layer _ _ hchk
    have hsym : Symmetric (fun a b : Chars =>
        net_layer_to_css_class a layer ≠ net_layer_to_css_class b layer) :=
      fun a b hab => fun he => hab he.symm
    exact absurd hcls (hpw.forall hsym h1 h2 hne)
  | error e =>
    obtain ⟨e1, e2, e3, e4, e5⟩ := checkCssCollisions_error_props layer
      active_nets _ _ e hchk (by simp) (fun n hn => hn) hnd
    refine ⟨e, ?_, e1, e2, e3, e4, e5⟩
    unfold generateIndividualNetSvgsSingleLayer
    rw [hchk]

/-- C5 witness: the nets `A/B` and `A.B` collide on layer `F.Cu`. -/
theorem C5_collision_fatal_witness :
    ∃ e : CssCollision,
      generateIndividualNetSvgsSingleLayer ("F.Cu".toList)
        [("A/B".toList), ("A.B".toList)] (fun n => n) = .error e ∧
      e.dup ∈ [("A/B".toList), ("A.B".toList)] ∧
      e.existing ∈ [("A/B".toList), ("A.B".toList)] ∧
      net_layer_to_css_class e.dup ("F.Cu".toList) = e.cls ∧
      net_layer_to_css_class e.existing ("F.Cu".toList) = e.cls ∧
      e.existing ≠ e.dup :=
  C5_collision_fatal ("F.Cu".toList) [("A/B".toList), ("A.B".toList)]
    (fun n => n) ("A/B".toList) ("A.B".toList) (by decide) (by decide)
    (by decide) (by decide) (by decide)

/-! ## C2: net color resolution -/

theorem find?_sorted_longest {pred : Chars → Bool} :
    ∀ (l : List Chars), l.Pairwise lenGE →
    ∀ p ∈ l, pred p = true →
    (∀ q ∈ l, q ≠ p → pred q = true → q.length < p.length) →
    l.find? pred = some p := by
  intro l
  induction l with
  | nil => intro _ p hp; simp at hp
  | cons a t ih =>
    intro hpw p hp hpred hlong
    by_cases hap : a = p
    · subst hap
      rw [List.find?]
      rw [hpred]
    · have hpt : p ∈ t := by
        rcases List.mem_cons.mp hp with h | h
        · exact absurd h.symm hap
        · exact h
      have hpa : pred a = false := by
        cases hpa : pred a with
        | false => rfl
        | true =>
          have hlt := hlong a (by simp) (fun h => hap h) hpa
          have hge : lenGE a p := (List.pairwise_cons.mp hpw).1 p hpt
          exact absurd hge (by unfold lenGE; omega)
      rw [List.find?]
      rw [hpa]
      exact ih (List.pairwise_cons.mp hpw).2 p hpt hpred
        (fun q hq => hlong q (by simp [hq]))

/-- C2: `resolve_net_color` returns none on an empty map; an exact key
match wins over any wildcard; otherwise, among the wildcard patterns
that glob-match the net name, a strictly longest one wins regardless of
the map's insertion order. -/
theorem C2_resolve_net_color :
    (∀ name : Chars, resolve_net_color name [] = none) ∧
    (∀ (name : Chars) (cfg : List (Chars × Chars)) (c : Chars),
      lookupAssoc name cfg = some c →
      resolve_net_color name cfg = some c) ∧
    (∀ (name : Chars) (cfg : List (Chars × Chars)) (p col : Chars),
      (cfg.map (fun q => q.1)).Nodup →
      lookupAssoc name cfg = none →
      (p, col) ∈ cfg → isWildcardPat p = true → globMatch p name = true →
      (∀ q ∈ cfg.map (fun x => x.1), q ≠ p → isWildcardPat q = true →
        globMatch q name = true → q.length < p.length) →
      resolve_net_color name cfg = some col) := by
  refine ⟨fun name => rfl, ?_, ?_⟩
  · intro name cfg c h
    have hne : cfg.isEmpty = false := by
      cases cfg with
      | nil => exact absurd h (by simp [lookupAssoc])
      | cons a t => rfl
    unfold resolve_net_color
    rw [hne, h]
    simp
  · intro name cfg p col hnd hnone hmem hwild hglob hlong
    have hne : cfg.isEmpty = false := by
      cases cfg with
      | nil => simp at hmem
      | cons a t => rfl
    have hperm : List.Perm (sortPatternsByLen (cfg.map (fun q => q.1)))
        (cfg.map (fun q => q.1)) :=
      List.perm_insertionSort lenGE _
    have hsorted : (sortPatternsByLen (cfg.map (fun q => q.1))).Pairwise
        lenGE := List.sorted_insertionSort lenGE _
    have hpmem : p ∈ sortPatternsByLen (cfg.map (fun q => q.1)) := by
      apply hperm.mem_iff.mpr
      exact List.mem_map_of_mem _ hmem
    have hfind : (sortPatternsByLen (cfg.map (fun q => q.1))).find?
        (fun q => isWildcardPat q && globMatch q name) = some p := by
      apply find?_sorted_longest _ hsorted p hpmem
        (by rw [hwild, hglob]; rfl)
      intro q hq hqp hpred
      have hq2 : q ∈ cfg.map (fun x => x.1) := hperm.mem_iff.mp hq
      have hpred2 : isWildcardPat q = true ∧ globMatch q name = true := by
        simpa using hpred
      exact hlong q hq2 hqp hpred2.1 hpred2.2
    unfold resolve_net_color
    rw [hne]
    rw [hnone]
    rw [hfind]
    exact lookupAssoc_mem_nodup hnd hmem

/-- C2 witness: the empty map yields none; the exact entry beats the
wildcard; the longer matching wildcard wins with either insertion
order. -/
theorem C2_resolve_net_color_witness :
    resolve_net_color ("X".toList) [] = none ∧
    resolve_net_color ("A".toList)
      [("A".toList, "#111111".toList), ("A*".toList, "#222222".toList)]
      = some ("#111111".toList) ∧
    resolve_net_color ("DATA_BUS_X".toList)
      [("DATA*".toList, "#111111".toList),
       ("DATA_BUS*".toList, "#222222".toList)]
      = some ("#222222".toList) ∧
    resolve_net_color ("DATA_BUS_X".toList)
      [("DATA_BUS*".toList, "#222222".toList),
       ("DATA*".toList, "#111111".toList)]
      = some ("#222222".toList) :=
  ⟨C2_resolve_net_color.1 _,
   C2_resolve_net_color.2.1 _ _ _ (by rfl),
   C2_resolve_net_color.2.2 _ _ ("DATA_BUS*".toList) _ (by decide) (by rfl)
     (by decide) (by rfl) (by rfl) (by decide),
   C2_resolve_net_color.2.2 _ _ ("DATA_BUS*".toList) _ (by decide) (by rfl)
     (by decide) (by rfl) (by rfl) (by decide)⟩

/-! ## C4: identifier safety -/

theorem mem_of_mem_dropWhile {p : Char → Bool} :
    ∀ {l : Chars} {c : Char}, c ∈ l.dropWhile p → c ∈ l := by
  intro l
  induction l with
  | nil => intro c h; simpa using h
  | cons a t ih =>
    intro c h
    cases hp : p a with
    | true =>
      rw [List.dropWhile_cons, hp] at h
      simp at h
      exact List.mem_cons_of_mem a (ih h)
    | false =>
      rw [List.dropWhile_cons, hp] at h
      simpa using h

theorem mem_of_mem_stripBy {p : Char → Bool} {l : Chars} {c : Char}
    (h : c ∈ stripBy p l) : c ∈ l := by
  unfold stripBy at h
  have h1 := List.mem_reverse.mp h
  have h2 := mem_of_mem_dropWhile h1
  have h3 := List.mem_reverse.mp h2
  exact mem_of_mem_dropWhile h3

theorem collapseSepRunsGo_mem :
    ∀ (fuel : Nat) (l : Chars) (c : Char),
      c ∈ collapseSepRunsGo fuel l → c = '-' ∨ c ∈ l := by
  intro fuel
  induction fuel with
  | zero =>
    intro l c h
    cases l with
    | nil => simp [collapseSepRunsGo] at h
    | cons a t => exact Or.inr (by simpa [collapseSepRunsGo] using h)
  | succ n ih =>
    intro l c h
    cases l with
    | nil => simp [collapseSepRunsGo] at h
    | cons a t =>
      rw [collapseSepRunsGo] at h
      by_cases hsep : isSepCh a = true
      · rw [if_pos hsep] at h
        by_cases htw : (t.takeWhile isSepCh).isEmpty = true
        · rw [if_pos htw] at h
          rcases List.mem_cons.mp h with he | hm
          · exact Or.inr (by simp [he])
          · rcases ih t c hm with h1 | h1
            · exact Or.inl h1
            · exact Or.inr (List.mem_cons_of_mem a h1)
        · rw [if_neg htw] at h
          rcases List.mem_cons.mp h with he | hm
          · exact Or.inl he
          · rcases ih _ c hm with h1 | h1
            · exact Or.inl h1
            · exact Or.inr
                (List.mem_cons_of_mem a (mem_of_mem_dropWhile h1))
      · rw [if_neg hsep] at h
        rcases List.mem_cons.mp h with he | hm
        · exact Or.inr (by simp [he])
        · rcases ih t c hm with h1 | h1
          · exact Or.inl h1
          · exact Or.inr (List.mem_cons_of_mem a h1)

theorem validIdentChar_of_cssAllowed {c : Char}
    (h : isCssAllowed c = true) : validIdentChar c = true := by
  have h2 : isDigitB c = true ∨ c = '_' ∨ c = '-' ∨
      (asciiCasePairs.any fun p => p.1 == c) = true := by
    simpa [isCssAllowed, Bool.or_assoc] using h
  unfold validIdentChar
  rcases h2 with h3 | h3 | h3 | h3
  · simp [h3]
  · simp [h3]
  · simp [h3]
  · have halpha : isPyAlphaCh c = true := by
      unfold isPyAlphaCh
      rcases List.any_eq_true.mp h3 with ⟨p, hp, hpc⟩
      refine List.any_eq_true.mpr ⟨p, hp, ?_⟩
      simp at hpc
      simp [hpc]
    simp [halpha]

theorem cssClassCore_all {z : Chars}
    (hz : ∀ c ∈ z, isCssAllowed c = true) :
    (cssClassCore z).all validIdentChar = true := by
  have hzall : z.all validIdentChar = true :=
    List.all_eq_true.mpr
      (fun c hc => validIdentChar_of_cssAllowed (hz c hc))
  cases z with
  | nil => decide
  | cons a t =>
    by_cases hcond : (isPyAlphaCh a || a == '_') = true
    · have he : cssClassCore (a :: t) = a :: t := by
        simp [cssClassCore, hcond]
      rw [he]
      exact hzall
    · have he : cssClassCore (a :: t) = ("net-".toList) ++ a :: t := by
        simp [cssClassCore, hcond]
      rw [he]
      rw [List.all_append]
      rw [hzall]
      decide

/-- C4: for every net-name string, the identifier produced by
`net_name_to_css_class` is non-empty and matches
`[A-Za-z_][A-Za-z0-9_-]*` anchored at both ends, falling back to the
fixed unknown token when nothing usable remains. -/
theorem C4_identifier_safe (net_name : Chars) :
    net_name_to_css_class net_name ≠ [] ∧
    validCssIdent (net_name_to_css_class net_name) = true := by
  have hzmem : ∀ c ∈ pyStripChars ['-', '_']
      (collapseSepRuns ((cssReplacedName net_name).filter isCssAllowed)),
      isCssAllowed c = true := by
    intro c hc
    have h1 : c ∈ collapseSepRuns
        ((cssReplacedName net_name).filter isCssAllowed) :=
      mem_of_mem_stripBy hc
    rcases collapseSepRunsGo_mem _ _ _ h1 with h2 | h2
    · rw [h2]; decide
    · exact (List.mem_filter.mp h2).2
  have hall := cssClassCore_all hzmem
  unfold net_name_to_css_class
  constructor
  · intro hnil
    have : ('n' : Char) ∈ ([] : Chars) := by
      rw [← hnil]
      show ('n' : Char) ∈ 'n' :: _
      exact List.mem_cons_self _ _
    simp at this
  · have h2 : (("et-".toList) ++ cssClassCore
        (pyStripChars ['-', '_'] (collapseSepRuns
          ((cssReplacedName net_name).filter isCssAllowed)))).all
        validIdentChar = true := by
      rw [List.all_append]
      rw [hall]
      decide
    have hcons : ∀ (c : Char) (rest : Chars), validCssIdent (c :: rest) =
        ((isPyAlphaCh c || c == '_') && rest.all validIdentChar) :=
      fun c rest => rfl
    show validCssIdent ('n' :: (("et-".toList) ++ _)) = true
    rw [hcons]
    rw [h2]
    decide

/-! ## C10: merge precondition failures and skipping of missing files -/

theorem validateDims_filter :
    ∀ (l : List Fragment) (rw rh rv : Option Chars),
      validateDims l rw rh rv =
        validateDims (l.filter (fun f => f.ex)) rw rh rv := by
  intro l
  induction l with
  | nil => intro rw rh rv; rfl
  | cons f rest ih =>
    intro rw rh rv
    by_cases hex : f.ex = true
    · rw [List.filter_cons_of_pos (by simpa using hex)]
      simp only [validateDims, hex]
      by_cases hrw : rw.isNone = true
      · simp [hrw, ih]
      · by_cases hdim : (f.width = rw ∧ f.height = rh ∧ f.viewBox = rv)
        · simp [hrw, hdim, ih]
        · simp [hrw, hdim]
    · have hex2 : f.ex = false := by simpa using hex
      rw [List.filter_cons_of_neg (by simp [hex2])]
      simp only [validateDims, hex2]
      simp [ih]

theorem validateDims_error_shape :
    ∀ (l : List Fragment) (rw rh rv : Option Chars) (e : MergeError),
      validateDims l rw rh rv = .error e →
      ∃ f ew eh ev, e = .dimMismatch f ew eh ev := by
  intro l
  induction l with
  | nil => intro rw rh rv e h; exact absurd h (by simp [validateDims])
  | cons f rest ih =>
    intro rw rh rv e h
    simp only [validateDims] at h
    by_cases hex : f.ex = true
    · simp only [hex] at h
      by_cases hrw : rw.isNone = true
      · simp only [hrw] at h
        exact ih _ _ _ _ (by simpa using h)
      · by_cases hdim : (f.width = rw ∧ f.height = rh ∧ f.viewBox = rv)
        · simp only [hrw, hdim] at h
          exact ih _ _ _ _ (by simpa using h)
        · simp only [hrw, hdim] at h
          simp at h
          exact ⟨f, rw, rh, rv, h.symm⟩
    · have hex2 : f.ex = false := by simpa using hex
      simp only [hex2] at h
      exact ih _ _ _ _ (by simpa using h)

theorem validateDims_all_missing :
    ∀ (l : List Fragment) (rw rh rv : Option Chars),
      (∀ f ∈ l, f.ex = false) →
      validateDims l rw rh rv = .ok (rw, rh, rv) := by
  intro l
  induction l with
  | nil => intro rw rh rv _; rfl
  | cons f rest ih =>
    intro rw rh rv hall
    have hex : f.ex = false := hall f (by simp)
    simp only [validateDims, hex]
    simp
    exact ih _ _ _ (fun g hg => hall g (by simp [hg]))

theorem filter_ex_idem (fs : List Fragment) :
    (fs.filter (fun f => f.ex)).filter (fun f => f.ex)
      = fs.filter (fun f => f.ex) := by
  rw [List.filter_filter]
  simp

theorem cssStylesOf_filter (fs : List Fragment) :
    cssStylesOf (fs.filter (fun f => f.ex)) = cssStylesOf fs := by
  unfold cssStylesOf
  rw [filter_ex_idem]

theorem mergeBodySpans_filter (fs : List Fragment) :
    mergeBodySpans (fs.filter (fun f => f.ex)) = mergeBodySpans fs := by
  unfold mergeBodySpans
  rw [filter_ex_idem]

theorem mergeOutput_filter (rw rh rv : Option Chars) (fs : List Fragment) :
    mergeOutput rw rh rv (fs.filter (fun f => f.ex))
      = mergeOutput rw rh rv fs := by
  unfold mergeOutput mergeStyleSec
  rw [cssStylesOf_filter, mergeBodySpans_filter]

theorem baseList_all_ex : ∀ b : Option Fragment, ∀ f ∈ baseList b,
    f.ex = true := by
  intro b f hf
  cases b with
  | none => simp [baseList] at hf
  | some bb =>
    simp only [baseList] at hf
    by_cases hex : bb.ex = true
    · rw [if_pos hex] at hf
      simp at hf
      rw [hf]
      exact hex
    · rw [if_neg hex] at hf
      simp at hf

/-- C10: `merge_svg_files` raises the no-files error exactly when the
input list is empty; nonexistent paths are skipped (merging a list is
the same as merging its existing sublist, whenever that sublist is
non-empty); and when no input path nor the base exists, it raises the
no-valid-files error, writing no output. -/
theorem C10_merge_missing_files :
    (∀ b, merge_svg_files [] b = .error .noSvgFiles) ∧
    (∀ (fs : List Fragment) (b : Option Fragment),
      merge_svg_files fs b = .error .noSvgFiles → fs = []) ∧
    (∀ (fs : List Fragment) (b : Option Fragment), fs ≠ [] →
      fs.filter (fun f => f.ex) ≠ [] →
      merge_svg_files fs b = merge_svg_files (fs.filter (fun f => f.ex)) b) ∧
    (∀ (fs : List Fragment) (b : Option Fragment), fs ≠ [] →
      (∀ f ∈ fs, f.ex = false) →
      (∀ bb, b = some bb → bb.ex = false) →
      merge_svg_files fs b = .error .noValidFiles) := by
  refine ⟨fun b => rfl, ?_, ?_, ?_⟩
  · intro fs b h
    cases hfs : fs with
    | nil => rfl
    | cons f rest =>
      subst hfs
      exfalso
      unfold merge_svg_files at h
      simp only [List.isEmpty_cons] at h
      rw [if_neg (by simp)] at h
      cases hv : validateDims (baseList b ++ f :: rest) none none none with
      | error e =>
        rw [hv] at h
        obtain ⟨g, ew, eh, ev, hshape⟩ :=
          validateDims_error_shape _ _ _ _ _ hv
        injection h with h
        rw [hshape] at h
        exact absurd h.symm (by simp)
      | ok triple =>
        rw [hv] at h
        obtain ⟨rw0, rh0, rv0⟩ := triple
        cases rv0 with
        | none => simp at h
        | some v => simp at h
  · intro fs b hne hfne
    have hval : validateDims (baseList b ++ fs) none none none =
        validateDims (baseList b ++ fs.filter (fun f => f.ex))
          none none none := by
      rw [validateDims_filter (baseList b ++ fs)]
      rw [validateDims_filter (baseList b ++ fs.filter (fun f => f.ex))]
      rw [List.filter_append, List.filter_append]
      rw [filter_ex_idem]
    unfold merge_svg_files
    rw [if_neg (by simpa using hne)]
    rw [if_neg (by simpa using hfne)]
    rw [hval]
    cases validateDims (baseList b ++ fs.filter (fun f => f.ex))
        none none none with
    | error e => rfl
    | ok triple =>
      obtain ⟨rw0, rh0, rv0⟩ := triple
      cases rv0 with
      | none => rfl
      | some v =>
        simp only []
        rw [mergeOutput_filter]
  · intro fs b hne hall hbase
    unfold merge_svg_files
    rw [if_neg (by simpa using hne)]
    have hbl : baseList b = [] := by
      cases b with
      | none => rfl
      | some bb =>
        simp only [baseList]
        rw [if_neg]
        simp [hbase bb rfl]
    rw [hbl]
    simp only [List.nil_append]
    rw [validateDims_all_missing fs none none none hall]

/-- C10 witness: the three behaviors at concrete inputs, including a
nonexistent file being skipped next to an existing one. -/
theorem C10_merge_missing_files_witness :
    merge_svg_files [] none = .error .noSvgFiles ∧
    ([] : List Fragment) = [] ∧
    merge_svg_files
      [⟨false, none, none, none, []⟩,
       ⟨true, some ("5".toList), some ("5".toList),
         some ("0 0 5 5".toList), "<g>a</g>".toList⟩] none
      = merge_svg_files
        (([⟨false, none, none, none, []⟩,
           ⟨true, some ("5".toList), some ("5".toList),
             some ("0 0 5 5".toList), "<g>a</g>".toList⟩] :
            List Fragment).filter (fun f => f.ex)) none ∧
    merge_svg_files [(⟨false, none, none, none, []⟩ : Fragment)] none
      = .error .noValidFiles :=
  ⟨C10_merge_missing_files.1 none,
   C10_merge_missing_files.2.1 [] none (by rfl),
   C10_merge_missing_files.2.2.1 _ none (by decide) (by decide),
   C10_merge_missing_files.2.2.2 _ none (by decide) (by decide)
     (fun bb hbb => by simp at hbb)⟩

/-! ## C6: copper color detection -/

theorem firstSome_append (l1 l2 : List (Option Chars)) :
    firstSome (l1 ++ l2) =
      (match firstSome l1 with
       | some c => some c
       | none => firstSome l2) := by
  induction l1 with
  | nil => rfl
  | cons x rest ih =>
    cases x with
    | some c => rfl
    | none =>
      rw [List.cons_append]
      rw [firstSome]
      rw [ih]
      rfl

theorem findCopper_preorder_aux :
    ∀ n : Nat,
      (∀ root : XElem, sizeOf root ≤ n →
        findCopperInElem root =
          firstSome ((preorderElems root).map elemCheck)) ∧
      (∀ cs : List XElem, sizeOf cs ≤ n →
        findCopperInList cs =
          firstSome ((preorderList cs).map elemCheck)) := by
  intro n
  induction n with
  | zero =>
    constructor
    · intro root h
      obtain ⟨fill, style, children⟩ := root
      simp at h
    · intro cs h
      cases cs with
      | nil => simp at h
      | cons e rest => simp at h
  | succ m ih =>
    constructor
    · intro root h
      obtain ⟨fill, style, children⟩ := root
      have hsz : sizeOf children ≤ m := by
        simp at h
        omega
      rw [findCopperInElem, preorderElems]
      simp only [List.map_cons]
      cases hfc : checkElemFill fill with
      | some c =>
        have : elemCheck (.node fill style children) = some c := by
          simp [elemCheck, hfc]
        rw [this]
        rfl
      | none =>
        cases hcs : checkElemStyle style with
        | some c =>
          have : elemCheck (.node fill style children) = some c := by
            simp [elemCheck, hfc, hcs]
          rw [this]
          rfl
        | none =>
          have : elemCheck (.node fill style children) = none := by
            simp [elemCheck, hfc, hcs]
          rw [this]
          rw [firstSome]
          exact ih.2 children hsz
    · intro cs h
      cases cs with
      | nil => rfl
      | cons e rest =>
        have hsze : sizeOf e ≤ m := by simp at h; omega
        have hszr : sizeOf rest ≤ m := by simp at h; omega
        rw [findCopperInList, preorderList]
        simp only [List.map_append]
        rw [firstSome_append]
        rw [ih.1 e hsze]
        cases firstSome ((preorderElems e).map elemCheck) with
        | some c => rfl
        | none =>
          simp only []
          exact ih.2 rest hszr

theorem onlyBW_none_aux :
    ∀ n : Nat,
      (∀ root : XElem, sizeOf root ≤ n → onlyBWFillsElem root = true →
        findCopperInElem root = none) ∧
      (∀ cs : List XElem, sizeOf cs ≤ n → onlyBWFillsList cs = true →
        findCopperInList cs = none) := by
  intro n
  induction n with
  | zero =>
    constructor
    · intro root h
      obtain ⟨fill, style, children⟩ := root
      simp at h
    · intro cs h
      cases cs with
      | nil => intro _; rfl
      | cons e rest => simp at h
  | succ m ih =>
    constructor
    · intro root h hbw
      obtain ⟨fill, style, children⟩ := root
      have hsz : sizeOf children ≤ m := by simp at h; omega
      rw [onlyBWFillsElem] at hbw
      have hfill : (fill == none || fill == some ("#000000".toList)
          || fill == some ("#FFFFFF".toList)) = true := by
        rcases Bool.and_eq_true_iff.mp hbw with ⟨h1, _⟩
        exact (Bool.and_eq_true_iff.mp h1).1
      have hstyle : style.isEmpty = true := by
        rcases Bool.and_eq_true_iff.mp hbw with ⟨h1, _⟩
        exact (Bool.and_eq_true_iff.mp h1).2
      have hrest : onlyBWFillsList children = true :=
        (Bool.and_eq_true_iff.mp hbw).2
      have hfc : checkElemFill fill = none := by
        have h3 : fill = none ∨ fill = some ("#000000".toList) ∨
            fill = some ("#FFFFFF".toList) := by
          simpa [Bool.or_assoc] using hfill
        rcases h3 with h4 | h4 | h4 <;> rw [h4] <;> rfl
      have hst : style = [] := by
        cases style with
        | nil => rfl
        | cons a t => simp at hstyle
      rw [findCopperInElem]
      rw [hfc, hst]
      have : checkElemStyle [] = none := rfl
      rw [this]
      exact ih.2 children hsz hrest
    · intro cs h hbw
      cases cs with
      | nil => rfl
      | cons e rest =>
        have hsze : sizeOf e ≤ m := by simp at h; omega
        have hszr : sizeOf rest ≤ m := by simp at h; omega
        rw [onlyBWFillsList] at hbw
        obtain ⟨h1, h2⟩ := Bool.and_eq_true_iff.mp hbw
        rw [findCopperInList]
        rw [ih.1 e hsze h1]
        exact ih.2 rest hszr h2

/-- C6 counterexample to the claim as stated: a document whose only fill
is the lowercase variant of pure white makes `find_copper_color_in_svg`
return pure white, because the fill-attribute exclusion test compares
case-sensitively before uppercasing. -/
theorem C6_counterexample_lowercase_white :
    find_copper_color_in_svg
      ⟨some (.node (some ("#ffffff".toList)) [] []), []⟩
      = some ("#FFFFFF".toList) ∧
    find_copper_color_in_svg
      ⟨some (.node (some ("#ffffff".toList)) [] []), []⟩ ≠ none := by
  constructor
  · rfl
  · intro h
    simp [find_copper_color_in_svg] at h
    exact absurd h (by decide)

/-- C6 (amended): detection returns none on parse failure; it scans
elements in document order taking the first per-element hit; the
fill-attribute path excludes exactly the literal strings
`#000000`/`#FFFFFF` (case-sensitively) and uppercases what it returns;
the style path never returns any case variant of pure black or white;
and a document whose only fills are the exact uppercase black and white
strings yields none. -/
theorem C6_find_copper_amended :
    (∀ f : SvgFile, f.tree = none →
      find_copper_color_in_svg f = none) ∧
    (∀ root : XElem, findCopperInElem root =
      firstSome ((preorderElems root).map elemCheck)) ∧
    (∀ (fill c : Chars), checkElemFill (some fill) = some c →
      fill ∉ NON_COPPER_COLORS ∧ matchesHex6 fill = true ∧
      c = upperStr fill) ∧
    (∀ (style c : Chars), checkElemStyle style = some c →
      c ∉ NON_COPPER_COLORS) ∧
    (∀ root : XElem, onlyBWFillsElem root = true →
      findCopperInElem root = none) := by
  refine ⟨?_, ?_, ?_, ?_, ?_⟩
  · intro f hf
    unfold find_copper_color_in_svg
    rw [hf]
  · intro root
    exact (findCopper_preorder_aux (sizeOf root)).1 root (Nat.le_refl _)
  · intro fill c h
    have he : checkElemFill (some fill) =
        if ¬ fill.isEmpty ∧ fill ∉ NON_COPPER_COLORS then
          (if matchesHex6 fill then some (upperStr fill) else none)
        else none := rfl
    rw [he] at h
    split at h
    · rename_i hcond
      split at h
      · rename_i hhex
        injection h with h
        exact ⟨hcond.2, hhex, h.symm⟩
      · exact absurd h (by simp)
    · exact absurd h (by simp)
  · intro style c h
    unfold checkElemStyle at h
    split at h
    · split at h
      · rename_i color heq
        split at h
        · rename_i hnot
          injection h with h
          rw [← h]
          exact hnot
        · exact absurd h (by simp)
      · exact absurd h (by simp)
    · exact absurd h (by simp)
  · intro root hbw
    exact (onlyBW_none_aux (sizeOf root)).1 root (Nat.le_refl _) hbw

/-- C6 witness: the amended behaviors at concrete documents. -/
theorem C6_find_copper_amended_witness :
    find_copper_color_in_svg ⟨none, "not valid xml".toList⟩ = none ∧
    (("#ffffff".toList) ∉ NON_COPPER_COLORS ∧
      matchesHex6 ("#ffffff".toList) = true ∧
      ("#FFFFFF".toList) = upperStr ("#ffffff".toList)) ∧
    ("#123456".toList) ∉ NON_COPPER_COLORS ∧
    findCopperInElem
      (.node (some ("#000000".toList)) []
        [.node (some ("#FFFFFF".toList)) [] []]) = none :=
  ⟨C6_find_copper_amended.1 _ rfl,
   C6_find_copper_amended.2.2.1 ("#ffffff".toList) _ (by rfl),
   C6_find_copper_amended.2.2.2.1 ("fill:#123456".toList) _ (by rfl),
   C6_find_copper_amended.2.2.2.2 _ (by rfl)⟩

/-! ## C7: duplicated class attribute from the stroke pass -/

/-- C7 (code bug): on an element styled with both the detected fill and
stroke color, the fill pass attaches the class attribute and the stroke
pass attaches it again, because its guard checks for `class=` only
inside the matched `style="..."` text, which ends at the attribute's
closing quote — before the class attribute the fill pass appended. The
output therefore carries a duplicated class attribute, contradicting
both the specification and the code's own comment. -/
theorem C7_stroke_pass_duplicates_class :
    containsSub ("class=\"net-vcc\" class=\"net-vcc\"".toList)
      (okColorContent (apply_css_class_to_svg
        ⟨some (.node none ("fill:#B28C00;stroke:#B28C00".toList) []),
         ("<g style=\"fill:#B28C00;stroke:#B28C00\"><path d=\"M1,1\"/></g>").toList⟩
        ("VCC".toList) ("#FF0000".toList) none)) = true := by
  rfl

/-! ## C3: parse_color round trip -/

theorem mem_hexDigitChars_of {c : Char} (h : isHexDigitB c = true) :
    c ∈ hexDigitChars := by
  simpa [isHexDigitB] using h

theorem mem_upperHexChars_of {c : Char} (h : isUpperHexDigit c = true) :
    c ∈ upperHexChars := by
  simpa [isUpperHexDigit] using h

theorem toUpperCh_hex_all :
    ∀ c ∈ hexDigitChars, isUpperHexDigit (toUpperCh c) = true := by
  decide

theorem toUpperCh_hex {c : Char} (h : isHexDigitB c = true) :
    isUpperHexDigit (toUpperCh c) = true :=
  toUpperCh_hex_all c (mem_hexDigitChars_of h)

theorem upperHex_fixed_all :
    ∀ c ∈ upperHexChars, toUpperCh c = c := by
  decide

theorem upperHex_fixed {c : Char} (h : isUpperHexDigit c = true) :
    toUpperCh c = c :=
  upperHex_fixed_all c (mem_upperHexChars_of h)

theorem upperHex_isHex_all :
    ∀ c ∈ upperHexChars, isHexDigitB c = true := by
  decide

theorem upperHex_isHex {c : Char} (h : isUpperHexDigit c = true) :
    isHexDigitB c = true :=
  upperHex_isHex_all c (mem_upperHexChars_of h)

theorem upperHex_not_ws_all :
    ∀ c ∈ upperHexChars, isPyWs c = false := by
  decide

theorem upperHex_not_ws {c : Char} (h : isUpperHexDigit c = true) :
    isPyWs c = false :=
  upperHex_not_ws_all c (mem_upperHexChars_of h)

theorem dropWhile_eq_self_of_all {p : Char → Bool} {l : Chars}
    (h : ∀ c ∈ l, p c = false) : l.dropWhile p = l := by
  cases l with
  | nil => rfl
  | cons a t =>
    rw [List.dropWhile_cons]
    rw [h a (by simp)]
    simp

theorem pyStrip_eq_self {l : Chars} (h : ∀ c ∈ l, isPyWs c = false) :
    pyStrip l = l := by
  unfold pyStrip stripBy
  rw [dropWhile_eq_self_of_all h]
  rw [dropWhile_eq_self_of_all (fun c hc => h c (List.mem_reverse.mp hc))]
  exact List.reverse_reverse l

theorem hexDigitUpper_upperHex (n : Nat) :
    isUpperHexDigit (hexDigitUpper n) = true := by
  unfold hexDigitUpper
  split <;> decide

theorem parse_color_upperHex {ds : Chars} (h6 : ds.length = 6)
    (hall : ∀ c ∈ ds, isUpperHexDigit c = true) :
    parse_color ('#' :: ds) = .ok ('#' :: ds) := by
  have hnws : ∀ c ∈ ('#' :: ds), isPyWs c = false := by
    intro c hc
    rcases List.mem_cons.mp hc with he | hm
    · rw [he]; decide
    · exact upperHex_not_ws (hall c hm)
  have hstrip : pyStrip ('#' :: ds) = '#' :: ds := pyStrip_eq_self hnws
  have hmatch : matchesHexColor ('#' :: ds) = true := by
    have hds : ds.all isHexDigitB = true :=
      List.all_eq_true.mpr (fun c hc => upperHex_isHex (hall c hc))
    show (ds.all isHexDigitB && (ds.length == 6 || ds.length == 8)) = true
    rw [hds, h6]
    rfl
  have hupper : upperStr ('#' :: ds) = '#' :: ds := by
    unfold upperStr
    rw [List.map_cons]
    have h1 : toUpperCh '#' = '#' := by decide
    have h2 : ds.map toUpperCh = ds := by
      have := List.map_congr_left
        (f := toUpperCh) (g := id)
        (fun c hc => upperHex_fixed (hall c hc))
      rw [this]
      exact List.map_id ds
    rw [h1, h2]
  unfold parse_color
  rw [hstrip]
  rw [if_neg (by simp)]
  rw [if_pos hmatch]
  rw [hupper]
  have hlen : ('#' :: ds).length ≤ 7 := by simp [h6]
  rw [List.take_of_length_le hlen]

theorem named_colors_ok : ∀ p ∈ NAMED_COLORS,
    p.2.length = 7 ∧ p.2.headI = '#' ∧ parse_color p.2 = .ok p.2 := by
  decide

theorem matchesHexColor_shape {l : Chars} (h : matchesHexColor l = true) :
    ∃ ds, l = '#' :: ds ∧ ds.all isHexDigitB = true ∧
      (ds.length = 6 ∨ ds.length = 8) := by
  unfold matchesHexColor at h
  split at h
  · rename_i ds
    refine ⟨ds, rfl, ?_, ?_⟩
    · exact (Bool.and_eq_true_iff.mp h).1
    · have h2 := (Bool.and_eq_true_iff.mp h).2
      rcases Bool.or_eq_true_iff.mp h2 with h3 | h3
      · exact Or.inl (by simpa using h3)
      · exact Or.inr (by simpa using h3)
  · simp at h

theorem hexByte_all_upperHex (n : Nat) :
    ∀ c ∈ hexByte n, isUpperHexDigit c = true := by
  intro c hc
  unfold hexByte at hc
  rcases List.mem_cons.mp hc with he | hm
  · rw [he]; exact hexDigitUpper_upperHex _
  · have : c = hexDigitUpper (n % 16) := by simpa using hm
    rw [this]
    exact hexDigitUpper_upperHex _

/-- C3: every color accepted by `parse_color` comes out as a 7-character
string starting with the hash sign, and `parse_color` is idempotent on
its own output. -/
theorem C3_parse_color_roundtrip (s c : Chars)
    (h : parse_color s = .ok c) :
    c.length = 7 ∧ c.headI = '#' ∧ parse_color c = .ok c := by
  unfold parse_color at h
  by_cases hempty : (pyStrip s).isEmpty = true
  · rw [if_pos hempty] at h
    exact absurd h (by simp)
  · rw [if_neg hempty] at h
    by_cases hhex : matchesHexColor (pyStrip s) = true
    · rw [if_pos hhex] at h
      obtain ⟨ds, hshape, hall, hlen⟩ := matchesHexColor_shape hhex
      rw [hshape] at h
      injection h with h
      have hds6 : (ds.take 6).length = 6 := by
        rw [List.length_take]
        omega
      have hdsall : ∀ d ∈ (ds.take 6).map toUpperCh,
          isUpperHexDigit d = true := by
        intro d hd
        rcases List.mem_map.mp hd with ⟨d0, hd0, hd0e⟩
        have : d0 ∈ ds := List.mem_of_mem_take hd0
        rw [← hd0e]
        exact toUpperCh_hex (List.all_eq_true.mp hall d0 this)
      have hc : c = '#' :: (ds.take 6).map toUpperCh := by
        rw [← h]
        unfold upperStr
        rw [List.map_cons]
        have h1 : toUpperCh '#' = '#' := by decide
        rw [h1]
        have h2 : List.take 7 ('#' :: ds.map toUpperCh)
            = '#' :: List.take 6 (ds.map toUpperCh) := rfl
        rw [h2]
        rw [List.map_take]
      have hlen2 : ((ds.take 6).map toUpperCh).length = 6 := by
        rw [List.length_map]
        exact hds6
      subst hc
      refine ⟨by rw [List.length_cons, hlen2], rfl, ?_⟩
      exact parse_color_upperHex hlen2 hdsall
    · rw [if_neg hhex] at h
      cases hrgb : (matchRgb (pyStrip s)).orElse
          (fun _ => matchRgba (pyStrip s)) with
      | some t =>
        rw [hrgb] at h
        obtain ⟨r, g, b⟩ := t
        have h2 : (if r ≤ MAX_RGB_VALUE && g ≤ MAX_RGB_VALUE
              && b ≤ MAX_RGB_VALUE then
            (Except.ok ('#' :: (hexByte r ++ hexByte g ++ hexByte b)) :
              Except ColorError Chars)
          else .error (.rgbOutOfRange r g b)) = .ok c := h
        clear h
        by_cases hrange : (r ≤ MAX_RGB_VALUE && g ≤ MAX_RGB_VALUE
            && b ≤ MAX_RGB_VALUE) = true
        · rw [if_pos hrange] at h2
          injection h2 with h
          have hc : c = '#' :: (hexByte r ++ hexByte g ++ hexByte b) :=
            h.symm
          have hall : ∀ d ∈ hexByte r ++ hexByte g ++ hexByte b,
              isUpperHexDigit d = true := by
            intro d hd
            rcases List.mem_append.mp hd with h1 | h1
            · rcases List.mem_append.mp h1 with h2 | h2
              · exact hexByte_all_upperHex r d h2
              · exact hexByte_all_upperHex g d h2
            · exact hexByte_all_upperHex b d h1
          have hlen : (hexByte r ++ hexByte g ++ hexByte b).length = 6 :=
            rfl
          subst hc
          refine ⟨by rw [List.length_cons, hlen], rfl, ?_⟩
          exact parse_color_upperHex hlen hall
        · rw [if_neg hrange] at h2
          exact absurd h2 (by simp)
      | none =>
        rw [hrgb] at h
        cases hlook : lookupAssoc (lowerStr (pyStrip s)) NAMED_COLORS with
        | some col =>
          rw [hlook] at h
          injection h with h
          subst h
          have hmem := lookupAssoc_some_mem hlook
          exact named_colors_ok _ hmem
        | none =>
          rw [hlook] at h
          exact absurd h (by simp)

/-- C3 witness: a named color, at which the round trip is concrete. -/
theorem C3_parse_color_roundtrip_witness :
    ("#FF0000".toList).length = 7 ∧ ("#FF0000".toList).headI = '#' ∧
    parse_color ("#FF0000".toList) = .ok ("#FF0000".toList) :=
  C3_parse_color_roundtrip ("red".toList) ("#FF0000".toList) (by rfl)

/-! ## C8: out-of-range rgb channels are rejected -/

theorem digitCharOf_lt10 :
    ∀ n < 10, isDigitB (digitCharOf n) = true ∧
      digitVal (digitCharOf n) = n := by
  decide

theorem digit_not_ws_all : ∀ c ∈ digitChars, isPyWs c = false := by
  decide

theorem natFromDigits_append_digit (xs : Chars) (d : Char) :
    natFromDigits (xs ++ [d]) = 10 * natFromDigits xs + digitVal d := by
  unfold natFromDigits
  rw [List.foldl_append]
  rfl

theorem natToDigitsGo_spec :
    ∀ (fuel n : Nat), n ≤ fuel →
      natToDigitsGo fuel n ≠ [] ∧
      (∀ c ∈ natToDigitsGo fuel n, isDigitB c = true) ∧
      natFromDigits (natToDigitsGo fuel n) = n := by
  intro fuel
  induction fuel with
  | zero =>
    intro n hn
    have h0 : n = 0 := by omega
    subst h0
    exact ⟨by decide, by decide, by decide⟩
  | succ m ih =>
    intro n hn
    by_cases h10 : n < 10
    · rw [natToDigitsGo, if_pos h10]
      obtain ⟨hd1, hd2⟩ := digitCharOf_lt10 n h10
      refine ⟨by simp, ?_, ?_⟩
      · intro c hc
        have : c = digitCharOf n := by simpa using hc
        rw [this]
        exact hd1
      · show natFromDigits [digitCharOf n] = n
        have : natFromDigits [digitCharOf n] = digitVal (digitCharOf n) := by
          unfold natFromDigits
          simp
        rw [this, hd2]
    · rw [natToDigitsGo, if_neg h10]
      have hdiv : n / 10 ≤ m := by
        have : n / 10 < n := Nat.div_lt_self (by omega) (by omega)
        omega
      obtain ⟨ih1, ih2, ih3⟩ := ih (n / 10) hdiv
      have hmod : n % 10 < 10 := Nat.mod_lt _ (by omega)
      obtain ⟨hm1, hm2⟩ := digitCharOf_lt10 _ hmod
      refine ⟨by simp, ?_, ?_⟩
      · intro c hc
        rcases List.mem_append.mp hc with h1 | h1
        · exact ih2 c h1
        · have : c = digitCharOf (n % 10) := by simpa using h1
          rw [this]
          exact hm1
      · rw [natFromDigits_append_digit, ih3, hm2]
        omega

theorem natToDigits_spec (n : Nat) :
    natToDigits n ≠ [] ∧
    (∀ c ∈ natToDigits n, isDigitB c = true) ∧
    natFromDigits (natToDigits n) = n :=
  natToDigitsGo_spec n n (Nat.le_refl n)

theorem takeWhile_append_exact {p : Char → Bool} :
    ∀ (xs ys : Chars), (∀ x ∈ xs, p x = true) →
      (∀ c, ys.head? = some c → p c = false) →
      (xs ++ ys).takeWhile p = xs ∧ (xs ++ ys).dropWhile p = ys := by
  intro xs
  induction xs with
  | nil =>
    intro ys _ hy
    cases ys with
    | nil => exact ⟨rfl, rfl⟩
    | cons c t =>
      have hc := hy c rfl
      constructor
      · rw [List.nil_append, List.takeWhile_cons, hc]
        rfl
      · rw [List.nil_append, List.dropWhile_cons, hc]
        rfl
  | cons x xs ih =>
    intro ys hx hy
    have hpx : p x = true := hx x (by simp)
    obtain ⟨iht, ihd⟩ := ih ys (fun a ha => hx a (by simp [ha])) hy
    constructor
    · rw [List.cons_append, List.takeWhile_cons, hpx]
      simp [iht]
    · rw [List.cons_append, List.dropWhile_cons, hpx]
      simp [ihd]

theorem takeDigits_digits_prefix {n : Nat} {rest : Chars}
    (hr : ∀ c, rest.head? = some c → isDigitB c = false) :
    takeDigits (natToDigits n ++ rest) = some (natToDigits n, rest) := by
  obtain ⟨hne, hall, _⟩ := natToDigits_spec n
  obtain ⟨ht, hd⟩ := takeWhile_append_exact _ _ hall hr
  show (if ((natToDigits n ++ rest).takeWhile isDigitB).isEmpty then none
    else some ((natToDigits n ++ rest).takeWhile isDigitB,
      (natToDigits n ++ rest).dropWhile isDigitB))
    = some (natToDigits n, rest)
  rw [ht, hd]
  have hne2 : (natToDigits n).isEmpty = false := by
    cases hh : natToDigits n with
    | nil => exact absurd hh hne
    | cons a t => rfl
  rw [hne2]
  rfl

theorem takeDigits_not_digit_head {c : Char} {t : Chars}
    (h : isDigitB c = false) : takeDigits (c :: t) = none := by
  show (if ((c :: t).takeWhile isDigitB).isEmpty then none
    else some ((c :: t).takeWhile isDigitB, (c :: t).dropWhile isDigitB))
    = none
  rw [List.takeWhile_cons, h]
  rfl

theorem skipWs_cons_not_ws {c : Char} {t : Chars} (h : isPyWs c = false) :
    skipWs (c :: t) = c :: t := by
  unfold skipWs
  rw [List.dropWhile_cons, h]
  rfl

theorem skipWs_digits (n : Nat) (rest : Chars) :
    skipWs (natToDigits n ++ rest) = natToDigits n ++ rest := by
  obtain ⟨hne, hall, _⟩ := natToDigits_spec n
  cases hh : natToDigits n with
  | nil => exact absurd hh hne
  | cons a t =>
    have ha : isDigitB a = true := by
      apply hall
      rw [hh]
      simp
    have hws : isPyWs a = false :=
      digit_not_ws_all a (by simpa [isDigitB] using ha)
    rw [List.cons_append]
    exact skipWs_cons_not_ws hws

theorem dropExact_self_append (pre x : Chars) :
    dropExact pre (pre ++ x) = some x := by
  unfold dropExact
  rw [if_pos]
  · rw [List.drop_left]
  · exact List.isPrefixOf_iff_prefix.mpr (List.prefix_append pre x)

theorem matchesHexColor_not_hash {a : Char} {l : Chars} (h : a ≠ '#') :
    matchesHexColor (a :: l) = false := by
  unfold matchesHexColor
  split
  · rename_i ds heq
    injection heq with h1 h2
    exact absurd h1 h
  · rfl

theorem pyStrip_head_last {a z : Char} {mid : Chars}
    (ha : isPyWs a = false) (hz : isPyWs z = false) :
    pyStrip (a :: (mid ++ [z])) = a :: (mid ++ [z]) := by
  unfold pyStrip stripBy
  have h1 : (a :: (mid ++ [z])).dropWhile isPyWs = a :: (mid ++ [z]) := by
    rw [List.dropWhile_cons, ha]
    simp
  rw [h1]
  have hrev : (a :: (mid ++ [z])).reverse = z :: (mid.reverse ++ [a]) := by
    rw [List.reverse_cons, List.reverse_append]
    simp
  rw [hrev]
  have h2 : (z :: (mid.reverse ++ [a])).dropWhile isPyWs
      = z :: (mid.reverse ++ [a]) := by
    rw [List.dropWhile_cons, hz]
    simp
  rw [h2]
  rw [← hrev]
  exact List.reverse_reverse _

theorem rgbLiteral_shape (r g b : Int) :
    rgbLiteral r g b = 'r' ::
      ((("gb(".toList) ++ intToDigits r ++ [','] ++ intToDigits g
        ++ [','] ++ intToDigits b) ++ [')']) := by
  simp [rgbLiteral, List.append_assoc]

theorem namedKeys_no_paren : ∀ p ∈ NAMED_COLORS, ¬ ('(' ∈ p.1) := by
  decide

theorem lookupAssoc_rgbParen_none (T : Chars) :
    lookupAssoc ('r' :: 'g' :: 'b' :: '(' :: T) NAMED_COLORS = none := by
  apply lookupAssoc_none_iff.mpr
  intro p hp he
  apply namedKeys_no_paren p hp
  rw [he]
  simp

theorem expectChar_cons_self : ∀ (c : Char) (t : Chars),
    expectChar c (c :: t) = some t := by
  intro c t
  unfold expectChar
  simp

theorem skipWs_comma : ∀ (Y : Chars), skipWs (',' :: Y) = ',' :: Y :=
  fun Y => skipWs_cons_not_ws (by decide)

theorem skipWs_lparen : ∀ (Y : Chars), skipWs ('(' :: Y) = '(' :: Y :=
  fun Y => skipWs_cons_not_ws (by decide)

theorem skipWs_rparen : ∀ (Y : Chars), skipWs (')' :: Y) = ')' :: Y :=
  fun Y => skipWs_cons_not_ws (by decide)

theorem takeDigits_run : ∀ (n : Nat) (c : Char) (Y : Chars),
    isDigitB c = false →
    takeDigits (natToDigits n ++ (c :: Y)) = some (natToDigits n, c :: Y) := by
  intro n c Y hc
  refine takeDigits_digits_prefix (fun d hd => ?_)
  simp at hd
  rw [← hd]
  exact hc

theorem matchRgbTail_pos (n m k : Nat) :
    matchRgbTail false ('(' :: (natToDigits n ++ (',' :: (natToDigits m
      ++ (',' :: (natToDigits k ++ [')'])))))) = some (n, m, k) := by
  unfold matchRgbTail
  rw [skipWs_lparen, expectChar_cons_self]
  simp only [Option.bind_eq_bind, Option.some_bind]
  rw [skipWs_digits, takeDigits_run n ',' _ (by decide)]
  simp only [Option.bind_eq_bind, Option.some_bind]
  rw [skipWs_comma, expectChar_cons_self]
  simp only [Option.bind_eq_bind, Option.some_bind]
  rw [skipWs_digits, takeDigits_run m ',' _ (by decide)]
  simp only [Option.bind_eq_bind, Option.some_bind]
  rw [skipWs_comma, expectChar_cons_self]
  simp only [Option.bind_eq_bind, Option.some_bind]
  rw [skipWs_digits, takeDigits_run k ')' _ (by decide)]
  simp only [Option.bind_eq_bind, Option.some_bind]
  rw [skipWs_rparen]
  simp only [Bool.false_eq_true, if_false, Option.bind_eq_bind,
    Option.some_bind]
  rw [expectChar_cons_self]
  simp only [Option.bind_eq_bind, Option.some_bind]
  simp [(natToDigits_spec n).2.2, (natToDigits_spec m).2.2,
    (natToDigits_spec k).2.2]

theorem matchRgbTail_neg1 (T : Chars) :
    matchRgbTail false ('(' :: ('-' :: T)) = none := by
  unfold matchRgbTail
  rw [skipWs_lparen, expectChar_cons_self]
  simp only [Option.bind_eq_bind, Option.some_bind]
  rw [skipWs_cons_not_ws (by decide : isPyWs '-' = false)]
  rw [takeDigits_not_digit_head (by decide)]
  simp only [Option.bind_eq_bind, Option.none_bind]

theorem matchRgbTail_neg2 (n : Nat) (T : Chars) :
    matchRgbTail false ('(' :: (natToDigits n ++ (',' :: ('-' :: T))))
      = none := by
  unfold matchRgbTail
  rw [skipWs_lparen, expectChar_cons_self]
  simp only [Option.bind_eq_bind, Option.some_bind]
  rw [skipWs_digits, takeDigits_run n ',' _ (by decide)]
  simp only [Option.bind_eq_bind, Option.some_bind]
  rw [skipWs_comma, expectChar_cons_self]
  simp only [Option.bind_eq_bind, Option.some_bind]
  rw [skipWs_cons_not_ws (by decide : isPyWs '-' = false)]
  rw [takeDigits_not_digit_head (by decide)]
  simp only [Option.bind_eq_bind, Option.none_bind]

theorem matchRgbTail_neg3 (n m : Nat) (T : Chars) :
    matchRgbTail false ('(' :: (natToDigits n ++ (',' :: (natToDigits m
      ++ (',' :: ('-' :: T)))))) = none := by
  unfold matchRgbTail
  rw [skipWs_lparen, expectChar_cons_self]
  simp only [Option.bind_eq_bind, Option.some_bind]
  rw [skipWs_digits, takeDigits_run n ',' _ (by decide)]
  simp only [Option.bind_eq_bind, Option.some_bind]
  rw [skipWs_comma, expectChar_cons_self]
  simp only [Option.bind_eq_bind, Option.some_bind]
  rw [skipWs_digits, takeDigits_run m ',' _ (by decide)]
  simp only [Option.bind_eq_bind, Option.some_bind]
  rw [skipWs_comma, expectChar_cons_self]
  simp only [Option.bind_eq_bind, Option.some_bind]
  rw [skipWs_cons_not_ws (by decide : isPyWs '-' = false)]
  rw [takeDigits_not_digit_head (by decide)]
  simp only [Option.bind_eq_bind, Option.none_bind]

theorem intToDigits_nonneg {i : Int} (h : 0 ≤ i) :
    intToDigits i = natToDigits i.toNat := by
  unfold intToDigits
  rw [if_neg (by omega)]

theorem intToDigits_neg {i : Int} (h : i < 0) :
    intToDigits i = '-' :: natToDigits i.natAbs := by
  unfold intToDigits
  rw [if_pos h]

theorem matchRgb_literal (r g b : Int) :
    matchRgb (rgbLiteral r g b) =
      if 0 ≤ r ∧ 0 ≤ g ∧ 0 ≤ b then some (r.toNat, g.toNat, b.toNat)
      else none := by
  have hstart : matchRgb (rgbLiteral r g b) = matchRgbTail false
      ('(' :: (intToDigits r ++ (',' :: (intToDigits g
        ++ (',' :: (intToDigits b ++ [')'])))))) := by
    unfold matchRgb rgbLiteral
    simp [List.append_assoc]
    rfl
  rw [hstart]
  by_cases hr : 0 ≤ r
  · rw [intToDigits_nonneg hr]
    by_cases hg : 0 ≤ g
    · rw [intToDigits_nonneg hg]
      by_cases hb : 0 ≤ b
      · rw [intToDigits_nonneg hb]
        rw [matchRgbTail_pos]
        rw [if_pos ⟨hr, hg, hb⟩]
      · rw [intToDigits_neg (by omega)]
        rw [List.cons_append]
        rw [matchRgbTail_neg3]
        rw [if_neg (by tauto)]
    · rw [intToDigits_neg (by omega)]
      rw [List.cons_append]
      rw [matchRgbTail_neg2]
      rw [if_neg (by tauto)]
  · rw [intToDigits_neg (by omega)]
    rw [List.cons_append]
    rw [matchRgbTail_neg1]
    rw [if_neg (by tauto)]

theorem matchRgba_literal (r g b : Int) :
    matchRgba (rgbLiteral r g b) = none := rfl

theorem pyStrip_rgbLiteral (r g b : Int) :
    pyStrip (rgbLiteral r g b) = rgbLiteral r g b := by
  rw [rgbLiteral_shape]
  exact pyStrip_head_last (by decide) (by decide)

/-- C8: for every integer triple with a channel outside 0..255, parsing
the literal `rgb(r,g,b)` raises a `ColorError`: channels above the
range hit the explicit range check, and negative channels fail the
digit syntax; values are never clamped into range. -/
theorem C8_rgb_out_of_range (r g b : Int)
    (h : r < 0 ∨ 255 < r ∨ g < 0 ∨ 255 < g ∨ b < 0 ∨ 255 < b) :
    ∃ e, parse_color (rgbLiteral r g b) = .error e := by
  have hstrip := pyStrip_rgbLiteral r g b
  have hne : (pyStrip (rgbLiteral r g b)).isEmpty = false := by
    rw [hstrip, rgbLiteral_shape]
    rfl
  have hhex : matchesHexColor (pyStrip (rgbLiteral r g b)) = false := by
    rw [hstrip, rgbLiteral_shape]
    exact matchesHexColor_not_hash (by decide)
  unfold parse_color
  rw [hne]
  simp only [Bool.false_eq_true, if_false]
  rw [hhex]
  simp only [Bool.false_eq_true, if_false]
  rw [hstrip]
  by_cases hsign : 0 ≤ r ∧ 0 ≤ g ∧ 0 ≤ b
  · rw [matchRgb_literal, if_pos hsign]
    have hrange : ¬ ((r.toNat ≤ MAX_RGB_VALUE && g.toNat ≤ MAX_RGB_VALUE
        && b.toNat ≤ MAX_RGB_VALUE) = true) := by
      simp only [MAX_RGB_VALUE]
      simp
      omega
    have horc : (some (r.toNat, g.toNat, b.toNat)).orElse
        (fun _ => matchRgba (rgbLiteral r g b))
        = some (r.toNat, g.toNat, b.toNat) := rfl
    rw [horc]
    refine ⟨ColorError.rgbOutOfRange r.toNat g.toNat b.toNat, ?_⟩
    show (if r.toNat ≤ MAX_RGB_VALUE && g.toNat ≤ MAX_RGB_VALUE
          && b.toNat ≤ MAX_RGB_VALUE then
        (Except.ok ('#' :: (hexByte r.toNat ++ hexByte g.toNat
          ++ hexByte b.toNat)) : Except ColorError Chars)
      else .error (.rgbOutOfRange r.toNat g.toNat b.toNat))
      = .error (.rgbOutOfRange r.toNat g.toNat b.toNat)
    rw [if_neg hrange]
  · rw [matchRgb_literal, if_neg hsign]
    have horc : (none : Option (Nat × Nat × Nat)).orElse
        (fun _ => matchRgba (rgbLiteral r g b))
        = matchRgba (rgbLiteral r g b) := rfl
    rw [horc]
    rw [matchRgba_literal]
    have hlow : lowerStr (rgbLiteral r g b) = 'r' :: 'g' :: 'b' :: '(' ::
        lowerStr (intToDigits r ++ [','] ++ intToDigits g ++ [',']
          ++ intToDigits b ++ [')']) := by
      simp [rgbLiteral, lowerStr, List.append_assoc]
      exact ⟨rfl, rfl, rfl, rfl⟩
    refine ⟨ColorError.invalidFormat (rgbLiteral r g b), ?_⟩
    show (match lookupAssoc (lowerStr (rgbLiteral r g b)) NAMED_COLORS with
      | some c => (Except.ok c : Except ColorError Chars)
      | none => .error (.invalidFormat (rgbLiteral r g b)))
      = .error (.invalidFormat (rgbLiteral r g b))
    rw [hlow, lookupAssoc_rgbParen_none]

/-- C8 witness: `rgb(300,0,0)` and `rgb(-1,2,3)` are both rejected. -/
theorem C8_rgb_out_of_range_witness :
    (∃ e, parse_color (rgbLiteral 300 0 0) = .error e) ∧
    (∃ e, parse_color (rgbLiteral (-1) 2 3) = .error e) :=
  ⟨C8_rgb_out_of_range 300 0 0 (by decide),
   C8_rgb_out_of_range (-1) 2 3 (by decide)⟩

/-! ## C1: the merge invariant -/

theorem dedupKeepFirst_not_in_seen :
    ∀ (l seen : List Chars) (r : Chars),
      r ∈ dedupKeepFirst seen l → r ∉ seen := by
  intro l
  induction l with
  | nil => intro seen r h; simp [dedupKeepFirst] at h
  | cons x rest ih =>
    intro seen r h
    rw [dedupKeepFirst] at h
    by_cases hx : x ∈ seen
    · rw [if_pos hx] at h
      exact ih seen r h
    · rw [if_neg hx] at h
      rcases List.mem_cons.mp h with he | hm
      · rw [he]; exact hx
      · have := ih (x :: seen) r hm
        intro hc
        exact this (by simp [hc])

theorem dedupKeepFirst_nodup :
    ∀ (l seen : List Chars), (dedupKeepFirst seen l).Nodup := by
  intro l
  induction l with
  | nil => intro seen; simp [dedupKeepFirst]
  | cons x rest ih =>
    intro seen
    rw [dedupKeepFirst]
    by_cases hx : x ∈ seen
    · rw [if_pos hx]
      exact ih seen
    · rw [if_neg hx]
      refine List.nodup_cons.mpr ⟨?_, ih (x :: seen)⟩
      intro hc
      exact dedupKeepFirst_not_in_seen rest (x :: seen) x hc (by simp)

theorem dedupKeepFirst_subset :
    ∀ (l seen : List Chars) (r : Chars),
      r ∈ dedupKeepFirst seen l → r ∈ l := by
  intro l
  induction l with
  | nil => intro seen r h; simp [dedupKeepFirst] at h
  | cons x rest ih =>
    intro seen r h
    rw [dedupKeepFirst] at h
    by_cases hx : x ∈ seen
    · rw [if_pos hx] at h
      exact List.mem_cons_of_mem x (ih seen r h)
    · rw [if_neg hx] at h
      rcases List.mem_cons.mp h with he | hm
      · rw [he]; simp
      · exact List.mem_cons_of_mem x (ih (x :: seen) r hm)

theorem dedupKeepFirst_length :
    ∀ (l seen : List Chars),
      (dedupKeepFirst seen l).length ≤ l.length := by
  intro l
  induction l with
  | nil => intro seen; simp [dedupKeepFirst]
  | cons x rest ih =>
    intro seen
    rw [dedupKeepFirst]
    by_cases hx : x ∈ seen
    · rw [if_pos hx]
      calc (dedupKeepFirst seen rest).length ≤ rest.length := ih seen
        _ ≤ (x :: rest).length := by simp
    · rw [if_neg hx]
      calc (x :: dedupKeepFirst (x :: seen) rest).length
          = (dedupKeepFirst (x :: seen) rest).length + 1 := by simp
        _ ≤ rest.length + 1 := by
            have := ih (x :: seen)
            omega
        _ = (x :: rest).length := by simp

theorem containsInOrder_wrap :
    ∀ (spans : List Chars) (A B : Chars),
      containsInOrder (A ++ ((spans.map (fun g => g ++ ['\n'])).join ++ B))
        spans := by
  intro spans
  induction spans with
  | nil => intro A B; trivial
  | cons s ss ih =>
    intro A B
    refine ⟨A, '\n' :: ((ss.map (fun g => g ++ ['\n'])).join ++ B), ?_, ?_⟩
    · simp [List.append_assoc]
    · have := ih ['\n'] B
      simpa using this

theorem containsInOrder_infix :
    ∀ (ps : List Chars) (s : Chars), containsInOrder s ps →
      ∀ p ∈ ps, ∃ pre rest, s = pre ++ p ++ rest := by
  intro ps
  induction ps with
  | nil => intro s _ p hp; simp at hp
  | cons q qs ih =>
    intro s h p hp
    obtain ⟨pre, rest, hs, hrest⟩ := h
    rcases List.mem_cons.mp hp with he | hm
    · subst he
      exact ⟨pre, rest, hs⟩
    · obtain ⟨a, b, hab⟩ := ih rest hrest p hm
      refine ⟨pre ++ q ++ a, b, ?_⟩
      rw [hs, hab]
      simp [List.append_assoc]

theorem firstIdxFrom_append_ne_none :
    ∀ (pre p rest : Chars) (i : Nat),
      firstIdxFrom p (pre ++ p ++ rest) i ≠ none := by
  intro pre
  induction pre with
  | nil =>
    intro p rest i
    simp only [List.nil_append]
    cases hp : p ++ rest with
    | nil =>
      have hpnil : p = [] := by
        cases p with
        | nil => rfl
        | cons a t => simp at hp
      rw [hpnil]
      simp [firstIdxFrom]
    | cons c t =>
      have hpre : p.isPrefixOf (c :: t) = true := by
        rw [← hp]
        exact List.isPrefixOf_iff_prefix.mpr (List.prefix_append p rest)
      rw [firstIdxFrom]
      rw [hpre]
      simp
  | cons c pre ih =>
    intro p rest i
    simp only [List.cons_append]
    rw [firstIdxFrom]
    by_cases hpf : p.isPrefixOf (c :: (pre ++ p ++ rest)) = true
    · rw [hpf]
      simp
    · rw [if_neg hpf]
      exact ih p rest (i + 1)

theorem firstIdx_append_ne_none (pre p rest : Chars) :
    firstIdx p (pre ++ p ++ rest) ≠ none :=
  firstIdxFrom_append_ne_none pre p rest 0

theorem validateDims_allex_mismatch :
    ∀ (l : List Fragment) (w : Chars) (rh rv : Option Chars),
      (∀ f ∈ l, f.ex = true) →
      (∃ f ∈ l, fragDims f ≠ (some w, rh, rv)) →
      ∃ f, validateDims l (some w) rh rv
          = .error (.dimMismatch f (some w) rh rv) ∧
        f ∈ l ∧ fragDims f ≠ (some w, rh, rv) := by
  intro l
  induction l with
  | nil =>
    intro w rh rv _ hex
    simp at hex
  | cons g rest ih =>
    intro w rh rv hall hex
    have hg : g.ex = true := hall g (by simp)
    by_cases hdim : (g.width = some w ∧ g.height = rh ∧ g.viewBox = rv)
    · have hgd : fragDims g = (some w, rh, rv) := by
        unfold fragDims
        rw [hdim.1, hdim.2.1, hdim.2.2]
      obtain ⟨f, hf, hfd⟩ := hex
      have hfrest : f ∈ rest := by
        rcases List.mem_cons.mp hf with he | hm
        · exact absurd (he ▸ hfd) (by rw [hgd]; simp)
        · exact hm
      obtain ⟨f2, h1, h2, h3⟩ := ih w rh rv
        (fun x hx => hall x (by simp [hx])) ⟨f, hfrest, hfd⟩
      refine ⟨f2, ?_, by simp [h2], h3⟩
      rw [validateDims]
      rw [if_neg (by simp [hg])]
      rw [if_neg (by simp)]
      rw [if_pos hdim]
      exact h1
    · refine ⟨g, ?_, by simp, ?_⟩
      · rw [validateDims]
        rw [if_neg (by simp [hg])]
        rw [if_neg (by simp)]
        rw [if_neg hdim]
      · unfold fragDims
        intro hc
        apply hdim
        refine ⟨?_, ?_, ?_⟩
        · exact congrArg (fun t => t.1) hc
        · exact congrArg (fun t => t.2.1) hc
        · exact congrArg (fun t => t.2.2) hc

theorem validateDims_allex_ok :
    ∀ (l : List Fragment) (w : Chars) (rh rv : Option Chars),
      (∀ f ∈ l, f.ex = true) →
      (∀ f ∈ l, fragDims f = (some w, rh, rv)) →
      validateDims l (some w) rh rv = .ok (some w, rh, rv) := by
  intro l
  induction l with
  | nil => intro w rh rv _ _; rfl
  | cons g rest ih =>
    intro w rh rv hall hdims
    have hg : g.ex = true := hall g (by simp)
    have hgd := hdims g (by simp)
    unfold fragDims at hgd
    have h1 : g.width = some w := congrArg (fun t => t.1) hgd
    have h2 : g.height = rh := congrArg (fun t => t.2.1) hgd
    have h3 : g.viewBox = rv := congrArg (fun t => t.2.2) hgd
    rw [validateDims]
    rw [if_neg (by simp [hg])]
    rw [if_neg (by simp)]
    rw [if_pos ⟨h1, h2, h3⟩]
    exact ih w rh rv (fun x hx => hall x (by simp [hx]))
      (fun x hx => hdims x (by simp [hx]))

theorem mergeBodySpans_no_skip :
    ∀ (files : List Fragment),
      (∀ f ∈ files, f.ex = true → ∀ g, extractGroupSpan f.content = some g →
        skipGroupSpan g = false) →
      mergeBodySpans files
        = (files.filter (fun f => f.ex)).filterMap
            (fun f => extractGroupSpan f.content) := by
  intro files
  induction files with
  | nil => intro _; rfl
  | cons f rest ih =>
    intro h
    have htail := ih (fun x hx hex g hg => h x (by simp [hx]) hex g hg)
    unfold mergeBodySpans at htail ⊢
    by_cases hex : f.ex = true
    · rw [List.filter_cons_of_pos (by simpa using hex)]
      rw [List.filterMap_cons, List.filterMap_cons]
      cases hext : extractGroupSpan f.content with
      | none =>
        simp only []
        exact htail
      | some g =>
        have hskip := h f (by simp) hex g hext
        simp only [hskip, Bool.false_eq_true, if_false]
        rw [htail]
    · rw [List.filter_cons_of_neg (by simpa using hex)]
      exact htail

/-- C1 (amended): merging a non-empty list whose first existing
fragment has a width attribute fails with a dimension-mismatch error —
reporting the reference dimensions and the offending fragment — as soon
as any later existing fragment differs in width, height, or viewBox
(string comparison); when instead all existing fragments agree and a
viewBox is present, the merge succeeds and its output contains, in
input order, every extracted group span that survives the background
and style-block skip (with no skipped span, that is every extracted
span of every existing fragment), while the merged CSS rule list is
duplicate-free, drawn from the input blocks, and no longer than the sum
of the per-block rule counts. -/
theorem C1_merge_invariant :
    (∀ (files : List Fragment) (base : Option Fragment)
        (f0 : Fragment) (rest : List Fragment) (w : Chars),
      files ≠ [] →
      (baseList base ++ files).filter (fun f => f.ex) = f0 :: rest →
      f0.width = some w →
      (∃ f ∈ rest, fragDims f ≠ fragDims f0) →
      ∃ f, merge_svg_files files base
          = .error (.dimMismatch f f0.width f0.height f0.viewBox) ∧
        f ∈ rest ∧ fragDims f ≠ fragDims f0) ∧
    (∀ (files : List Fragment) (base : Option Fragment)
        (f0 : Fragment) (rest : List Fragment) (w v : Chars),
      files ≠ [] →
      (baseList base ++ files).filter (fun f => f.ex) = f0 :: rest →
      f0.width = some w → f0.viewBox = some v →
      (∀ f ∈ rest, fragDims f = fragDims f0) →
      merge_svg_files files base
          = .ok (mergeOutput f0.width f0.height f0.viewBox files) ∧
        containsInOrder (mergeOutput f0.width f0.height f0.viewBox files)
          (mergeBodySpans files) ∧
        (mergedCssRules files).Nodup ∧
        (∀ r ∈ mergedCssRules files,
          r ∈ ((cssStylesOf files).map cssRulesOf).join) ∧
        (mergedCssRules files).length ≤
          ((cssStylesOf files).map (fun c => (cssRulesOf c).length)).sum) ∧
    (∀ files : List Fragment,
      (∀ f ∈ files, f.ex = true → ∀ g, extractGroupSpan f.content = some g →
        skipGroupSpan g = false) →
      mergeBodySpans files
        = (files.filter (fun f => f.ex)).filterMap
            (fun f => extractGroupSpan f.content)) := by
  have hallex : ∀ (l : List Fragment),
      ∀ f ∈ l.filter (fun f => f.ex), f.ex = true :=
    fun l f hf => by simpa using (List.mem_filter.mp hf).2
  refine ⟨?_, ?_, mergeBodySpans_no_skip⟩
  · intro files base f0 rest w hne hfilter hw hex
    have hex2 : ∀ f ∈ f0 :: rest, f.ex = true := by
      rw [← hfilter]
      exact hallex _
    have hf0d : fragDims f0 = (some w, f0.height, f0.viewBox) := by
      unfold fragDims
      rw [hw]
    have hex3 : ∃ f ∈ rest, fragDims f ≠ (some w, f0.height, f0.viewBox) := by
      obtain ⟨f, h1, h2⟩ := hex
      exact ⟨f, h1, by rw [← hf0d]; exact h2⟩
    obtain ⟨f, herr, hfrest, hfd⟩ := validateDims_allex_mismatch rest w
      f0.height f0.viewBox (fun x hx => hex2 x (by simp [hx])) hex3
    have hval : validateDims (baseList base ++ files) none none none
        = .error (.dimMismatch f (some w) f0.height f0.viewBox) := by
      rw [validateDims_filter, hfilter]
      rw [validateDims]
      rw [if_neg (by simp [hex2 f0 (by simp)])]
      rw [if_pos (by simp)]
      rw [hw]
      exact herr
    refine ⟨f, ?_, hfrest, by rw [hf0d]; exact hfd⟩
    unfold merge_svg_files
    rw [if_neg (by simpa using hne)]
    rw [hval]
    rw [hw]
  · intro files base f0 rest w v hne hfilter hw hv hdims
    have hex2 : ∀ f ∈ f0 :: rest, f.ex = true := by
      rw [← hfilter]
      exact hallex _
    have hf0d : fragDims f0 = (some w, f0.height, f0.viewBox) := by
      unfold fragDims
      rw [hw]
    have hval : validateDims (baseList base ++ files) none none none
        = .ok (some w, f0.height, some v) := by
      rw [validateDims_filter, hfilter]
      rw [validateDims]
      rw [if_neg (by simp [hex2 f0 (by simp)])]
      rw [if_pos (by simp)]
      rw [hw]
      rw [← hv]
      exact validateDims_allex_ok rest w f0.height f0.viewBox
        (fun x hx => hex2 x (by simp [hx]))
        (fun x hx => by rw [hdims x hx]; exact hf0d)
    have hmerge : merge_svg_files files base
        = .ok (mergeOutput f0.width f0.height f0.viewBox files) := by
      unfold merge_svg_files
      rw [if_neg (by simpa using hne)]
      rw [hval]
      show Except.ok (mergeOutput (some w) f0.height (some v) files)
          = .ok (mergeOutput f0.width f0.height f0.viewBox files)
      rw [hw, hv]
    refine ⟨hmerge, ?_, dedupKeepFirst_nodup _ [],
      fun r hr => dedupKeepFirst_subset _ [] r hr, ?_⟩
    · unfold mergeOutput
      rw [List.append_assoc
        (mergeHeader f0.width f0.height f0.viewBox ++ mergeStyleSec files)
        ((mergeBodySpans files).map (fun g => g ++ ['\n'])).join
        ("</svg>".toList)]
      exact containsInOrder_wrap (mergeBodySpans files)
        (mergeHeader f0.width f0.height f0.viewBox ++ mergeStyleSec files)
        ("</svg>".toList)
    · calc (mergedCssRules files).length
          ≤ (((cssStylesOf files).map cssRulesOf).join).length :=
            dedupKeepFirst_length _ []
        _ = (((cssStylesOf files).map cssRulesOf).map List.length).sum :=
            List.length_join _
        _ = ((cssStylesOf files).map
              (fun c => (cssRulesOf c).length)).sum := by
            rw [List.map_map]
            rfl

set_option maxRecDepth 8192 in
/-- C1 counterexample to the claim as stated: two fragments with
identical dimensions and two distinct non-empty group spans merge
successfully, yet the output omits the second span, because a span
containing a style tag is skipped; and a first existing fragment
without a width attribute makes the code re-take the reference from the
next fragment, so differing dimensions can merge without error. -/
theorem C1_counterexample_skipped_span :
    (∃ out, merge_svg_files
      [⟨true, some ("1".toList), some ("1".toList),
          some ("0 0 1 1".toList), "<g>a</g>".toList⟩,
       ⟨true, some ("1".toList), some ("1".toList),
          some ("0 0 1 1".toList), "<g><style>p</style></g>".toList⟩]
      none = .ok out) ∧
    ¬ containsInOrder
      (okContent (merge_svg_files
        [⟨true, some ("1".toList), some ("1".toList),
            some ("0 0 1 1".toList), "<g>a</g>".toList⟩,
         ⟨true, some ("1".toList), some ("1".toList),
            some ("0 0 1 1".toList), "<g><style>p</style></g>".toList⟩]
        none))
      ["<g>a</g>".toList, "<g><style>p</style></g>".toList] ∧
    (∃ out, merge_svg_files
      [⟨true, none, some ("2".toList), some ("0 0 2 2".toList),
          "<g>a</g>".toList⟩,
       ⟨true, some ("9".toList), some ("9".toList),
          some ("0 0 9 9".toList), "<g>b</g>".toList⟩]
      none = .ok out) := by
  refine ⟨⟨_, rfl⟩, ?_, ⟨_, rfl⟩⟩
  intro h
  obtain ⟨pre, rest, heq⟩ := containsInOrder_infix _ _ h
    ("<g><style>p</style></g>".toList) (by simp)
  have hnone : firstIdx ("<g><style>p</style></g>".toList)
      (okContent (merge_svg_files
        [⟨true, some ("1".toList), some ("1".toList),
            some ("0 0 1 1".toList), "<g>a</g>".toList⟩,
         ⟨true, some ("1".toList), some ("1".toList),
            some ("0 0 1 1".toList), "<g><style>p</style></g>".toList⟩]
        none)) = none := by rfl
  rw [heq] at hnone
  exact firstIdx_append_ne_none pre _ rest hnone

/-- C1 witness: the amended statement at concrete inputs — a mismatched
pair fails with the recorded reference, and a matching pair merges with
both spans kept in order. -/
theorem C1_merge_invariant_witness :
    (∃ f, merge_svg_files
      [⟨true, some ("1".toList), some ("1".toList),
          some ("0 0 1 1".toList), "<g>a</g>".toList⟩,
       ⟨true, some ("2".toList), some ("1".toList),
          some ("0 0 1 1".toList), "<g>b</g>".toList⟩] none
        = .error (.dimMismatch f (some ("1".toList)) (some ("1".toList))
            (some ("0 0 1 1".toList))) ∧
      f ∈ [⟨true, some ("2".toList), some ("1".toList),
          some ("0 0 1 1".toList), "<g>b</g>".toList⟩] ∧
      fragDims f ≠ fragDims ⟨true, some ("1".toList), some ("1".toList),
          some ("0 0 1 1".toList), "<g>a</g>".toList⟩) ∧
    (merge_svg_files
      [⟨true, some ("1".toList), some ("1".toList),
          some ("0 0 1 1".toList), "<g>a</g>".toList⟩,
       ⟨true, some ("1".toList), some ("1".toList),
          some ("0 0 1 1".toList), "<g>b</g>".toList⟩] none
        = .ok (mergeOutput (some ("1".toList)) (some ("1".toList))
            (some ("0 0 1 1".toList))
            [⟨true, some ("1".toList), some ("1".toList),
                some ("0 0 1 1".toList), "<g>a</g>".toList⟩,
             ⟨true, some ("1".toList), some ("1".toList),
                some ("0 0 1 1".toList), "<g>b</g>".toList⟩]) ∧
      containsInOrder (mergeOutput (some ("1".toList)) (some ("1".toList))
          (some ("0 0 1 1".toList))
          [⟨true, some ("1".toList), some ("1".toList),
              some ("0 0 1 1".toList), "<g>a</g>".toList⟩,
           ⟨true, some ("1".toList), some ("1".toList),
              some ("0 0 1 1".toList), "<g>b</g>".toList⟩])
        (mergeBodySpans
          [⟨true, some ("1".toList), some ("1".toList),
              some ("0 0 1 1".toList), "<g>a</g>".toList⟩,
           ⟨true, some ("1".toList), some ("1".toList),
              some ("0 0 1 1".toList), "<g>b</g>".toList⟩]) ∧
      (mergedCssRules
          [⟨true, some ("1".toList), some ("1".toList),
              some ("0 0 1 1".toList), "<g>a</g>".toList⟩,
           ⟨true, some ("1".toList), some ("1".toList),
              some ("0 0 1 1".toList), "<g>b</g>".toList⟩]).Nodup ∧
      (∀ r ∈ mergedCssRules
          [⟨true, some ("1".toList), some ("1".toList),
              some ("0 0 1 1".toList), "<g>a</g>".toList⟩,
           ⟨true, some ("1".toList), some ("1".toList),
              some ("0 0 1 1".toList), "<g>b</g>".toList⟩],
        r ∈ ((cssStylesOf
          [⟨true, some ("1".toList), some ("1".toList),
              some ("0 0 1 1".toList), "<g>a</g>".toList⟩,
           ⟨true, some ("1".toList), some ("1".toList),
              some ("0 0 1 1".toList), "<g>b</g>".toList⟩]).map
            cssRulesOf).join) ∧
      (mergedCssRules
          [⟨true, some ("1".toList), some ("1".toList),
              some ("0 0 1 1".toList), "<g>a</g>".toList⟩,
           ⟨true, some ("1".toList), some ("1".toList),
              some ("0 0 1 1".toList), "<g>b</g>".toList⟩]).length ≤
        ((cssStylesOf
          [⟨true, some ("1".toList), some ("1".toList),
              some ("0 0 1 1".toList), "<g>a</g>".toList⟩,
           ⟨true, some ("1".toList), some ("1".toList),
              some ("0 0 1 1".toList), "<g>b</g>".toList⟩]).map
          (fun c => (cssRulesOf c).length)).sum) :=
  ⟨C1_merge_invariant.1
      [⟨true, some ("1".toList), some ("1".toList),
          some ("0 0 1 1".toList), "<g>a</g>".toList⟩,
       ⟨true, some ("2".toList), some ("1".toList),
          some ("0 0 1 1".toList), "<g>b</g>".toList⟩] none
      ⟨true, some ("1".toList), some ("1".toList),
          some ("0 0 1 1".toList), "<g>a</g>".toList⟩
      [⟨true, some ("2".toList), some ("1".toList),
          some ("0 0 1 1".toList), "<g>b</g>".toList⟩]
      ("1".toList) (by decide) (by rfl) (by rfl) (by decide),
   C1_merge_invariant.2.1
      [⟨true, some ("1".toList), some ("1".toList),
          some ("0 0 1 1".toList), "<g>a</g>".toList⟩,
       ⟨true, some ("1".toList), some ("1".toList),
          some ("0 0 1 1".toList), "<g>b</g>".toList⟩] none
      ⟨true, some ("1".toList), some ("1".toList),
          some ("0 0 1 1".toList), "<g>a</g>".toList⟩
      [⟨true, some ("1".toList), some ("1".toList),
          some ("0 0 1 1".toList), "<g>b</g>".toList⟩]
      ("1".toList) ("0 0 1 1".toList) (by decide) (by rfl) (by rfl)
      (by rfl) (by decide)⟩

end KicadSvg
